import Mathlib

/-!
# itkImageCompare: comparison pipeline of `main.cxx`

Shallow embedding of `main` once the command line is parsed and the images
are read: the check on the outside switch, the size checks, the optional
masking, the difference image, its statistics and the tolerance check.

Numbers.  Voxels are `float`, statistics are `double`.  Both are values of
`Stat`: not-a-number, the two infinities, or a rational number.  Arithmetic on
numbers is the exact operation followed by IEEE round-to-nearest-even
(`round64` for `double`, `round32` for the cast to `float`), with overflow to
infinity and the IEEE rules for not-a-number and the infinities; every
comparison with not-a-number is false, as in C++.  The sign of zero is not
modelled.  The square root taken for sigma is kept by its radicand
(`Root.sqrt v`).  The sample count is below `2^53`, so its conversion to
`double` is exact.

ITK.  The four filters used by `main` are library code; their per-pixel
functors and the statistics formulas are transcribed from the ITK headers
named in each doc comment.  The statistics accumulate sample by sample in
traversal order.  Physical-space metadata (origin, spacing, direction) and the
exceptions ITK raises are not modelled.
-/

namespace ImageCompare

/-! ## Images -/

/-- Extent of a 3-D image: `itk::Size<3>`, the result of
`GetLargestPossibleRegion().GetSize()`; components are the sample counts along
x, y and z. -/
abbrev Size := Nat × Nat × Nat

/-- An `itk::Image<α, 3>`: its extent and the sample stored at index `(x, y, z)`.
Only indices inside the extent are ever read. -/
structure Image (α : Type) where
  size : Size
  pixel : Nat → Nat → Nat → α

/-- Samples of the image in the order an ITK region iterator visits them
(x fastest, then y, then z). -/
def Image.pixels {α : Type} (img : Image α) : List α :=
  (List.range img.size.2.2).flatMap fun z =>
    (List.range img.size.2.1).flatMap fun y =>
      (List.range img.size.1).map fun x => img.pixel x y z

/-- Index `(x, y, z)` lies inside the extent of the image. -/
def Image.inside {α : Type} (img : Image α) (x y z : Nat) : Prop :=
  x < img.size.1 ∧ y < img.size.2.1 ∧ z < img.size.2.2

instance {α : Type} (img : Image α) (x y z : Nat) : Decidable (img.inside x y z) := by
  unfold Image.inside
  infer_instance

/-- Image that holds the same sample everywhere, as used in the scenarios. -/
def Image.const {α : Type} (size : Size) (v : α) : Image α :=
  { size := size, pixel := fun _ _ _ => v }

/-! ## Floating-point values -/

/-- Largest finite `float`: `itk::NumericTraits<float>::max()`, that is
`(2^24 - 1) * 2^104`. -/
def FLT_MAX : ℚ := 340282346638528859811704183484516925440

/-- A `float` or `double` value: not-a-number, a number, or an infinity. -/
inductive Stat where
  | nan : Stat
  | num (q : ℚ) : Stat
  | pinf : Stat
  | ninf : Stat
  deriving DecidableEq, Repr

instance : Coe ℚ Stat := ⟨Stat.num⟩

instance (n : Nat) : OfNat Stat n := ⟨Stat.num n⟩

/-- Value of `std::sqrt` on a `Stat`: `sqrt v` is the square root of the
number `v` (only built for `0 ≤ v`), `nan` is not-a-number, `pinf` is
infinity. -/
inductive Root where
  | nan : Root
  | sqrt (v : ℚ) : Root
  | pinf : Root
  deriving DecidableEq, Repr

/-- C++ `std::sqrt(s)`: not-a-number for a not-a-number or negative argument. -/
def Stat.sqrt : Stat → Root
  | .nan => .nan
  | .num v => if v < 0 then .nan else .sqrt v
  | .pinf => .pinf
  | .ninf => .nan

/-- C++ `s > t` for a double `s` and a float number `t`. -/
def Stat.gt : Stat → ℚ → Bool
  | .nan, _ => false
  | .num q, t => decide (t < q)
  | .pinf, _ => true
  | .ninf, _ => false

/-- C++ `s <= t` for a double `s` and a float number `t`. -/
def Stat.le : Stat → ℚ → Bool
  | .nan, _ => false
  | .num q, t => decide (q ≤ t)
  | .pinf, _ => false
  | .ninf, _ => true

/-- C++ `a < b` on floating-point values. -/
def Stat.less : Stat → Stat → Bool
  | .nan, _ => false
  | _, .nan => false
  | .num a, .num b => decide (a < b)
  | .num _, .pinf => true
  | .num _, .ninf => false
  | .pinf, _ => false
  | .ninf, .ninf => false
  | .ninf, _ => true

/-- C++ `a <= b` on floating-point values. -/
def Stat.lessEq : Stat → Stat → Bool
  | .nan, _ => false
  | _, .nan => false
  | .num a, .num b => decide (a ≤ b)
  | .num _, .pinf => true
  | .num _, .ninf => false
  | .pinf, .pinf => true
  | .pinf, _ => false
  | .ninf, _ => true

instance : LT Stat := ⟨fun a b => Stat.less a b = true⟩

instance : LE Stat := ⟨fun a b => Stat.lessEq a b = true⟩

instance (a b : Stat) : Decidable (a < b) :=
  inferInstanceAs (Decidable (Stat.less a b = true))

instance (a b : Stat) : Decidable (a ≤ b) :=
  inferInstanceAs (Decidable (Stat.lessEq a b = true))

/-- C++ `r > t` for `r = std::sqrt(v)`: `√v > t` holds when `t` is negative or
`t * t < v`. -/
def Root.gt : Root → ℚ → Bool
  | .nan, _ => false
  | .sqrt v, t => decide (t < 0 ∨ t * t < v)
  | .pinf, _ => true

/-- C++ `r <= t` for `r = std::sqrt(v)`: `√v ≤ t` holds when `t` is
nonnegative and `v ≤ t * t`. -/
def Root.le : Root → ℚ → Bool
  | .nan, _ => false
  | .sqrt v, t => decide (0 ≤ t ∧ v ≤ t * t)
  | .pinf, _ => false

/-- Nearest integer, ties to the even one. -/
def roundHalfEven (m : ℚ) : ℤ :=
  if m - ⌊m⌋ < 1 / 2 then ⌊m⌋
  else if 1 / 2 < m - ⌊m⌋ then ⌊m⌋ + 1
  else if ⌊m⌋ % 2 = 0 then ⌊m⌋ else ⌊m⌋ + 1

/-- Round-to-nearest-even of a positive magnitude `x` in the binary format with
`p` significant bits and least normal exponent `emin`: the spacing of the
format around `x` is `2^e` with `e = max (floor (log2 x)) emin - (p - 1)`. -/
def roundMagnitude (p : Nat) (emin : ℤ) (x : ℚ) : ℚ :=
  (roundHalfEven (x / 2 ^ (max (Int.log 2 x) emin - ((p : ℤ) - 1))) : ℚ) *
    2 ^ (max (Int.log 2 x) emin - ((p : ℤ) - 1))

/-- IEEE round-to-nearest-even of the exact result `q` in the binary format
with `p` significant bits and exponent range `emin .. emax`; a rounded
magnitude of `2^(emax+1)` or more overflows to infinity. -/
def roundTo (p : Nat) (emin emax : ℤ) (q : ℚ) : Stat :=
  if q = 0 then .num 0
  else if (2 : ℚ) ^ (emax + 1) ≤ roundMagnitude p emin |q| then
    (if 0 < q then .pinf else .ninf)
  else .num (if 0 < q then roundMagnitude p emin |q| else -roundMagnitude p emin |q|)

/-- Rounding to `double` (binary64). -/
def round64 (q : ℚ) : Stat := roundTo 53 (-1022) 1023 q

/-- Rounding to `float` (binary32). -/
def round32 (q : ℚ) : Stat := roundTo 24 (-126) 127 q

/-- C++ unary minus. -/
def Stat.neg : Stat → Stat
  | .nan => .nan
  | .num q => .num (-q)
  | .pinf => .ninf
  | .ninf => .pinf

instance : Neg Stat := ⟨Stat.neg⟩

/-- C++ `a + b` on doubles. -/
def Stat.add : Stat → Stat → Stat
  | .nan, _ => .nan
  | _, .nan => .nan
  | .num a, .num b => round64 (a + b)
  | .pinf, .ninf => .nan
  | .ninf, .pinf => .nan
  | .pinf, _ => .pinf
  | _, .pinf => .pinf
  | .ninf, _ => .ninf
  | _, .ninf => .ninf

/-- C++ `a - b` on doubles. -/
def Stat.sub (a b : Stat) : Stat := Stat.add a (Stat.neg b)

/-- C++ `a * b` on doubles. -/
def Stat.mul : Stat → Stat → Stat
  | .nan, _ => .nan
  | _, .nan => .nan
  | .num a, .num b => round64 (a * b)
  | .num a, .pinf => if a = 0 then .nan else if 0 < a then .pinf else .ninf
  | .num a, .ninf => if a = 0 then .nan else if 0 < a then .ninf else .pinf
  | .pinf, .num b => if b = 0 then .nan else if 0 < b then .pinf else .ninf
  | .ninf, .num b => if b = 0 then .nan else if 0 < b then .ninf else .pinf
  | .pinf, .pinf => .pinf
  | .pinf, .ninf => .ninf
  | .ninf, .pinf => .ninf
  | .ninf, .ninf => .pinf

/-- C++ `a / b` on doubles; a zero divisor is `+0`. -/
def Stat.div : Stat → Stat → Stat
  | .nan, _ => .nan
  | _, .nan => .nan
  | .num a, .num b =>
    if b = 0 then (if a = 0 then .nan else if 0 < a then .pinf else .ninf)
    else round64 (a / b)
  | .num _, .pinf => .num 0
  | .num _, .ninf => .num 0
  | .pinf, .num b => if b < 0 then .ninf else .pinf
  | .ninf, .num b => if b < 0 then .pinf else .ninf
  | .pinf, .pinf => .nan
  | .pinf, .ninf => .nan
  | .ninf, .pinf => .nan
  | .ninf, .ninf => .nan

/-- C++ `static_cast<float>(d)` of a double. -/
def Stat.toFloat : Stat → Stat
  | .num q => round32 q
  | s => s

/-- The value lies on the grid of `float`: it is not-a-number, an infinity, or
an integer multiple of `2^(-149)`, the least positive `float`.  Every `float`
does. -/
def Stat.isFloat : Stat → Prop
  | .num q => (q * 2 ^ 149).den = 1
  | _ => True

instance (s : Stat) : Decidable s.isFloat := by
  cases s <;> unfold Stat.isFloat <;> infer_instance

/-! ## ITK filters -/

/-- State of `itk::Functor::MaskInput` and `itk::Functor::MaskNegatedInput`
(`itkMaskImageFilter.h`, `itkMaskNegatedImageFilter.h`): `m_OutsideValue` and
`m_MaskingValue`, both zero after construction. -/
structure MaskFunctor where
  outsideValue : Stat
  maskingValue : Nat

/-- Freshly constructed mask filter, `New()`: both values are zero. -/
def MaskFunctor.New : MaskFunctor := { outsideValue := 0, maskingValue := 0 }

/-- Setter `SetOutsideValue(v)` of both mask filters. -/
def MaskFunctor.SetOutsideValue (f : MaskFunctor) (v : Stat) : MaskFunctor :=
  { f with outsideValue := v }

/-- Setter `SetMaskingValue(v)` of both mask filters. -/
def MaskFunctor.SetMaskingValue (f : MaskFunctor) (v : Nat) : MaskFunctor :=
  { f with maskingValue := v }

/-- Per-pixel rule `itk::Functor::MaskInput::operator()(A, B)`:
`if (B != m_MaskingValue) return A; else return m_OutsideValue;`. -/
def MaskInput (f : MaskFunctor) (A : Stat) (B : Nat) : Stat :=
  if B ≠ f.maskingValue then A else f.outsideValue

/-- Per-pixel rule `itk::Functor::MaskNegatedInput::operator()(A, B)`:
`if (B != m_MaskingValue) return m_OutsideValue; else return A;`. -/
def MaskNegatedInput (f : MaskFunctor) (A : Stat) (B : Nat) : Stat :=
  if B ≠ f.maskingValue then f.outsideValue else A

/-- Per-pixel rule `itk::Functor::AbsoluteValueDifference2::operator()(A, B)`:
`dA = (double)A; dB = (double)B; diff = dA - dB;`
`absdiff = (diff > 0.0) ? diff : -diff; return (float)absdiff;`. -/
def AbsoluteValueDifference2 (A B : Stat) : Stat :=
  (if (Stat.sub A B).gt 0 then Stat.sub A B else Stat.neg (Stat.sub A B)).toFloat

/-- An ITK binary functor filter after `Update()`: the output takes the region
of the first input and holds `op (in1[c], in2[c])` at every index `c`. -/
def binaryFilter {α β γ : Type} (op : α → β → γ) (in1 : Image α) (in2 : Image β) : Image γ :=
  { size := in1.size, pixel := fun x y z => op (in1.pixel x y z) (in2.pixel x y z) }

/-- Output of `itk::MaskImageFilter` with the given settings. -/
def MaskImageFilter (f : MaskFunctor) (input : Image Stat) (mask : Image Nat) : Image Stat :=
  binaryFilter (MaskInput f) input mask

/-- Output of `itk::MaskNegatedImageFilter` with the given settings. -/
def MaskNegatedImageFilter (f : MaskFunctor) (input : Image Stat) (mask : Image Nat) :
    Image Stat :=
  binaryFilter (MaskNegatedInput f) input mask

/-- Output of `itk::AbsoluteValueDifferenceImageFilter`. -/
def AbsoluteValueDifferenceImageFilter (input1 input2 : Image Stat) : Image Stat :=
  binaryFilter AbsoluteValueDifference2 input1 input2

/-- The four values `main` reads from `itk::StatisticsImageFilter`:
`GetMean()`, `GetMaximum()`, `GetMinimum()`, `GetSigma()`. -/
structure Summary where
  mean : Stat
  maximum : Stat
  minimum : Stat
  sigma : Root
  deriving DecidableEq, Repr

/-- Accumulator `sum` of `itk::StatisticsImageFilter`: `sum += realValue` for
every sample, starting from zero. -/
def statSum (xs : List Stat) : Stat := xs.foldl (fun s v => Stat.add s v) 0

/-- Accumulator `sumOfSquares`: `sumOfSquares += realValue * realValue` for
every sample, starting from zero. -/
def sumOfSquares (xs : List Stat) : Stat := xs.foldl (fun s v => Stat.add s (Stat.mul v v)) 0

/-- Running minimum: `min = std::min(min, value)`, that is
`(value < min) ? value : min`, started at `NumericTraits<float>::max()`. -/
def statMinimum (xs : List Stat) : Stat := xs.foldl (fun m v => if v < m then v else m) FLT_MAX

/-- Running maximum: `max = std::max(max, value)`, that is
`(max < value) ? value : max`, started at
`NumericTraits<float>::NonpositiveMin()`. -/
def statMaximum (xs : List Stat) : Stat :=
  xs.foldl (fun m v => if m < v then v else m) (-FLT_MAX)

/-- Value `GetMean()`: `sum / static_cast<double>(count)`. -/
def statMean (xs : List Stat) : Stat :=
  Stat.div (statSum xs) (.num xs.length)

/-- Value `GetVariance()`:
`(sumOfSquares - (sum * sum / count)) / (count - 1)`. -/
def statVariance (xs : List Stat) : Stat :=
  Stat.div
    (Stat.sub (sumOfSquares xs) (Stat.div (Stat.mul (statSum xs) (statSum xs)) (.num xs.length)))
    (Stat.sub (.num xs.length) 1)

/-- Result of `itk::StatisticsImageFilter` (`itkStatisticsImageFilter.hxx`):
running minimum and maximum, mean `sum / count`, sigma `std::sqrt(variance)`. -/
def StatisticsImageFilter (img : Image Stat) : Summary :=
  { mean := statMean img.pixels
    maximum := statMaximum img.pixels
    minimum := statMinimum img.pixels
    sigma := (statVariance img.pixels).sqrt }

/-! ## `main` -/

/-- Values `main` works on once the command line is parsed and the readers
have run: the two images, the mask (`none` when `maskImageFileName` is
`"None"`), and the option values, which are float numbers. -/
structure Arguments where
  imageA : Image Stat
  imageB : Image Stat
  maskImage : Option (Image Nat)
  maskOutside : Bool
  maskLabel : Nat
  maskValue : ℚ
  maxTolerance : ℚ
  minTolerance : ℚ
  meanTolerance : ℚ
  sigmaTolerance : ℚ

/-- Process exit status. -/
inductive ExitCode where
  | EXIT_SUCCESS : ExitCode
  | EXIT_FAILURE : ExitCode
  deriving DecidableEq, Repr

/-- What a run leaves behind: the exit status, the lines written to
`std::cerr`, the masked images and the difference image when they were
computed, and the statistics written to `std::cout` when they were computed. -/
structure Run where
  exitCode : ExitCode
  cerr : List String
  masked : Option (Image Stat × Image Stat)
  difference : Option (Image Stat)
  cout : Option Summary

/-- Condition on line 92: `maskImageFileName == "None" && maskOutside`. -/
def outsideWithoutMask (maskSupplied maskOutside : Bool) : Bool :=
  !maskSupplied && maskOutside

/-- Masking step for image A (`maskImageFilterA` in both branches): with the
outside switch `SetOutsideValue(maskLabel)` on a `MaskNegatedImageFilter`,
otherwise `SetMaskingValue(maskLabel)` on a `MaskImageFilter`.  The option
`maskValue` is not passed to any filter. -/
def maskImageFilterA (maskOutside : Bool) (maskLabel : Nat) (input : Image Stat)
    (mask : Image Nat) : Image Stat :=
  if maskOutside then
    MaskNegatedImageFilter (MaskFunctor.New.SetOutsideValue (.num maskLabel)) input mask
  else
    MaskImageFilter (MaskFunctor.New.SetMaskingValue maskLabel) input mask

/-- Masking step for image B (`maskImageFilterB` in both branches):
`SetMaskingValue(maskLabel)` on a `MaskNegatedImageFilter` with the outside
switch and on a `MaskImageFilter` otherwise. -/
def maskImageFilterB (maskOutside : Bool) (maskLabel : Nat) (input : Image Stat)
    (mask : Image Nat) : Image Stat :=
  if maskOutside then
    MaskNegatedImageFilter (MaskFunctor.New.SetMaskingValue maskLabel) input mask
  else
    MaskImageFilter (MaskFunctor.New.SetMaskingValue maskLabel) input mask

/-- Image `maskedImageAOutput`: image A, replaced by the masked image when a
mask is supplied. -/
def maskedImageAOutput (a : Arguments) : Image Stat :=
  match a.maskImage with
  | none => a.imageA
  | some mask => maskImageFilterA a.maskOutside a.maskLabel a.imageA mask

/-- Image `maskedImageBOutput`: image B, replaced by the masked image when a
mask is supplied. -/
def maskedImageBOutput (a : Arguments) : Image Stat :=
  match a.maskImage with
  | none => a.imageB
  | some mask => maskImageFilterB a.maskOutside a.maskLabel a.imageB mask

/-- Line written to `std::cerr` when the outside switch comes without a mask. -/
def outsideMessage : String := "Outside mask switch should be used together with Mask Image"

/-- Line written to `std::cerr` when A and B differ in size. -/
def sizeMessageAB : String := "Image size are different for A and B"

/-- Line written to `std::cerr` when the mask differs in size. -/
def sizeMessageMask : String := "Image size are different for A, B and mask"

/-- Line written to `std::cerr` when the tolerance check fails. -/
def toleranceMessage : String :=
  "One of more of the measured statistics are higher than tolerance values"

/-- Condition of the final `if`:
`mean > meanTolerance || max > maxTolerance || min > minTolerance || sigma > sigmaTolerance`. -/
def exceedsTolerance (s : Summary) (meanTolerance maxTolerance minTolerance sigmaTolerance : ℚ) :
    Bool :=
  s.mean.gt meanTolerance || decide (s.maximum > maxTolerance) ||
    decide (s.minimum > minTolerance) || s.sigma.gt sigmaTolerance

/-- Exit status chosen by the final `if`. -/
def verdict (s : Summary) (meanTolerance maxTolerance minTolerance sigmaTolerance : ℚ) :
    ExitCode :=
  if exceedsTolerance s meanTolerance maxTolerance minTolerance sigmaTolerance
  then .EXIT_FAILURE else .EXIT_SUCCESS

/-- Function `main` on parsed arguments and loaded images: the return on the
outside switch without a mask (line 95), the two size checks, the optional
masking, the difference image, its statistics and the tolerance check. -/
def main (a : Arguments) : Run :=
  if outsideWithoutMask a.maskImage.isSome a.maskOutside then
    { exitCode := .EXIT_FAILURE, cerr := [outsideMessage], masked := none, difference := none,
      cout := none }
  else if a.imageA.size ≠ a.imageB.size then
    { exitCode := .EXIT_FAILURE, cerr := [sizeMessageAB], masked := none, difference := none,
      cout := none }
  else if a.maskImage.any fun mask => a.imageA.size ≠ mask.size ∨ a.imageB.size ≠ mask.size then
    { exitCode := .EXIT_FAILURE, cerr := [sizeMessageMask], masked := none, difference := none,
      cout := none }
  else
    let difference := AbsoluteValueDifferenceImageFilter (maskedImageAOutput a) (maskedImageBOutput a)
    let s := StatisticsImageFilter difference
    { exitCode := verdict s a.meanTolerance a.maxTolerance a.minTolerance a.sigmaTolerance
      cerr :=
        if exceedsTolerance s a.meanTolerance a.maxTolerance a.minTolerance a.sigmaTolerance
        then [toleranceMessage] else []
      masked := a.maskImage.map fun _ => (maskedImageAOutput a, maskedImageBOutput a)
      difference := some difference
      cout := some s }

/-! ## Scenarios and spec-side notions -/

/-- One-voxel image compared with itself, all options at their defaults. -/
def oneVoxelArgs : Arguments :=
  { imageA := Image.const (1, 1, 1) 5, imageB := Image.const (1, 1, 1) 5, maskImage := none,
    maskOutside := false, maskLabel := 0, maskValue := 0, maxTolerance := 0, minTolerance := 0,
    meanTolerance := 0, sigmaTolerance := 0 }

/-- One-voxel image compared with itself, with the outside switch and no mask. -/
def outsideNoMaskArgs : Arguments :=
  { imageA := Image.const (1, 1, 1) 5, imageB := Image.const (1, 1, 1) 5, maskImage := none,
    maskOutside := true, maskLabel := 0, maskValue := 0, maxTolerance := 0, minTolerance := 0,
    meanTolerance := 0, sigmaTolerance := 0 }

/-- One-voxel image holding infinity compared with itself, all options at
their defaults. -/
def infiniteVoxelArgs : Arguments :=
  { imageA := Image.const (1, 1, 1) .pinf, imageB := Image.const (1, 1, 1) .pinf,
    maskImage := none, maskOutside := false, maskLabel := 0, maskValue := 0, maxTolerance := 0,
    minTolerance := 0, meanTolerance := 0, sigmaTolerance := 0 }

/-- One-voxel images both holding infinity, under a mask whose voxel carries
label 0, target label 1, no outside switch, all ceilings 0. -/
def infiniteUnmaskedArgs : Arguments :=
  { imageA := Image.const (1, 1, 1) .pinf, imageB := Image.const (1, 1, 1) .pinf,
    maskImage := some (Image.const (1, 1, 1) 0), maskOutside := false, maskLabel := 1,
    maskValue := 0, maxTolerance := 0, minTolerance := 0, meanTolerance := 0,
    sigmaTolerance := 0 }

/-- Two-voxel images: A holds not-a-number and 5, B holds 5 and 5; no mask,
every option at its default. -/
def nanVoxelArgs : Arguments :=
  { imageA := { size := (2, 1, 1), pixel := fun x _ _ => if x = 0 then .nan else 5 },
    imageB := Image.const (2, 1, 1) 5, maskImage := none,
    maskOutside := false, maskLabel := 0, maskValue := 0, maxTolerance := 0, minTolerance := 0,
    meanTolerance := 0, sigmaTolerance := 0 }

/-- Scenario 2 of the spec: A is constant 5, B is constant 7, extent
`(2,2,2)`, no mask, `meanTolerance = 1`, the other ceilings at their default. -/
def scenario2Args : Arguments :=
  { imageA := Image.const (2, 2, 2) 5, imageB := Image.const (2, 2, 2) 7, maskImage := none,
    maskOutside := false, maskLabel := 0, maskValue := 0, maxTolerance := 0, minTolerance := 0,
    meanTolerance := 1, sigmaTolerance := 0 }

/-- Violations as the spec words them: one entry per statistic whose observed
value is strictly greater than its ceiling, naming the statistic. -/
def specViolations (s : Summary) (meanTolerance maxTolerance minTolerance sigmaTolerance : ℚ) :
    List String :=
  (if s.mean.gt meanTolerance then ["mean"] else []) ++
  (if s.maximum > maxTolerance then ["max"] else []) ++
  (if s.minimum > minTolerance then ["min"] else []) ++
  (if s.sigma.gt sigmaTolerance then ["sigma"] else [])

/-- One-voxel images A = 5 and B = 7 with a mask whose only voxel carries
label 1, target label 1 and fill value 0, in the mode given by the switch. -/
def labelledVoxelArgs (maskOutside : Bool) : Arguments :=
  { imageA := Image.const (1, 1, 1) 5, imageB := Image.const (1, 1, 1) 7,
    maskImage := some (Image.const (1, 1, 1) 1), maskOutside := maskOutside, maskLabel := 1,
    maskValue := 0, maxTolerance := 0, minTolerance := 0, meanTolerance := 0,
    sigmaTolerance := 0 }

/-- Scenario 3 of the spec: extent `(3,3,3)`, A and B identical except voxel
`(1,1,1)` where they differ by 10, mask label 1 only at `(1,1,1)`, target
label 1, fill value 0, all ceilings 0; the switch selects the mode. -/
def scenario3Args (maskOutside : Bool) : Arguments :=
  { imageA := { size := (3, 3, 3),
                pixel := fun x y z => if x = 1 ∧ y = 1 ∧ z = 1 then 15 else 5 },
    imageB := Image.const (3, 3, 3) 5,
    maskImage := some { size := (3, 3, 3),
                        pixel := fun x y z => if x = 1 ∧ y = 1 ∧ z = 1 then 1 else 0 },
    maskOutside := maskOutside, maskLabel := 1, maskValue := 0, maxTolerance := 0,
    minTolerance := 0, meanTolerance := 0, sigmaTolerance := 0 }

/-- Scenario 1 of the spec: A and B constant 5 over extent `(4,4,4)`, no
mask, all ceilings 0. -/
def scenario1Args : Arguments :=
  { imageA := Image.const (4, 4, 4) 5, imageB := Image.const (4, 4, 4) 5, maskImage := none,
    maskOutside := false, maskLabel := 0, maskValue := 0, maxTolerance := 0, minTolerance := 0,
    meanTolerance := 0, sigmaTolerance := 0 }

/-- Constant 5 against constant 7 over extent `(2,2,2)`, no mask, every
option at its default. -/
def defaultStrictArgs : Arguments :=
  { imageA := Image.const (2, 2, 2) 5, imageB := Image.const (2, 2, 2) 7, maskImage := none,
    maskOutside := false, maskLabel := 0, maskValue := 0, maxTolerance := 0, minTolerance := 0,
    meanTolerance := 0, sigmaTolerance := 0 }

/-- Population variance as the spec words it: `(sum of x²)/n - ((sum of x)/n)²`. -/
def specPopulationVariance (xs : List ℚ) : ℚ :=
  (xs.map fun x => x * x).sum / xs.length - (xs.sum / xs.length) * (xs.sum / xs.length)

/-- Sample variance: `((sum of x²) - (sum of x)²/n)/(n - 1)`. -/
def sampleVariance (xs : List ℚ) : ℚ :=
  ((xs.map fun x => x * x).sum - xs.sum * xs.sum / xs.length) / ((xs.length : ℚ) - 1)

/-- No double-precision operation of the statistics of the samples `qs`
rounds: every partial sum, every square, every partial sum of squares and
each step of the mean and variance formulas is representable. -/
def ExactStatistics (qs : List ℚ) : Prop :=
  (∀ k, round64 ((qs.take k).sum) = .num ((qs.take k).sum)) ∧
  (∀ q ∈ qs, round64 (q * q) = .num (q * q)) ∧
  (∀ k, round64 (((qs.take k).map fun q => q * q).sum) =
    .num (((qs.take k).map fun q => q * q).sum)) ∧
  round64 (qs.sum / qs.length) = .num (qs.sum / qs.length) ∧
  round64 (qs.sum * qs.sum) = .num (qs.sum * qs.sum) ∧
  round64 (qs.sum * qs.sum / qs.length) = .num (qs.sum * qs.sum / qs.length) ∧
  round64 ((qs.map fun q => q * q).sum - qs.sum * qs.sum / qs.length) =
    .num ((qs.map fun q => q * q).sum - qs.sum * qs.sum / qs.length) ∧
  round64 ((qs.length : ℚ) - 1) = .num ((qs.length : ℚ) - 1) ∧
  round64 (sampleVariance qs) = .num (sampleVariance qs)

/-- Two-voxel images: A holds 0 and 2, B holds 0 and 0, so the difference
image holds 0 and 2; no mask, every option at its default. -/
def twoVoxelArgs : Arguments :=
  { imageA := { size := (2, 1, 1), pixel := fun x _ _ => if x = 0 then 0 else 2 },
    imageB := Image.const (2, 1, 1) 0, maskImage := none,
    maskOutside := false, maskLabel := 0, maskValue := 0, maxTolerance := 0, minTolerance := 0,
    meanTolerance := 0, sigmaTolerance := 0 }

/-- Images of extent `(0,10,10)`, which hold no voxel, compared without a mask
under the given `minTolerance`, the other ceilings at their default. -/
def emptyArgs (minTolerance : ℚ) : Arguments :=
  { imageA := Image.const (0, 10, 10) 0, imageB := Image.const (0, 10, 10) 0, maskImage := none,
    maskOutside := false, maskLabel := 0, maskValue := 0, maxTolerance := 0,
    minTolerance := minTolerance, meanTolerance := 0, sigmaTolerance := 0 }

/-! ## Lemmas on floating-point values -/

@[simp] theorem Stat.ofNat_eq (n : Nat) : (OfNat.ofNat n : Stat) = Stat.num (n : ℚ) := rfl

@[simp] theorem Stat.neg_eq (s : Stat) : -s = Stat.neg s := rfl

theorem Stat.lt_iff (a b : Stat) : a < b ↔ Stat.less a b = true := Iff.rfl

theorem Stat.le_iff (a b : Stat) : a ≤ b ↔ Stat.lessEq a b = true := Iff.rfl

theorem roundHalfEven_intCast (z : ℤ) : roundHalfEven (z : ℚ) = z := by
  simp [roundHalfEven]

theorem floor_le_roundHalfEven (m : ℚ) : ⌊m⌋ ≤ roundHalfEven m := by
  unfold roundHalfEven
  split_ifs <;> omega

theorem roundTo_zero (p : Nat) (emin emax : ℤ) : roundTo p emin emax 0 = .num 0 := by
  simp [roundTo]

theorem roundTo_neg (p : Nat) (emin emax : ℤ) (q : ℚ) :
    roundTo p emin emax (-q) = Stat.neg (roundTo p emin emax q) := by
  unfold roundTo
  by_cases h0 : q = 0
  · simp [h0, Stat.neg]
  · have h0' : -q ≠ 0 := neg_ne_zero.2 h0
    rw [if_neg h0, if_neg h0', abs_neg]
    rcases lt_or_gt_of_ne h0 with hq | hq
    · have h1 : ¬ 0 < q := not_lt.2 (le_of_lt hq)
      have h2 : 0 < -q := neg_pos.2 hq
      split_ifs <;> simp [Stat.neg]
    · have h1 : ¬ 0 < -q := not_lt.2 (le_of_lt (neg_neg_of_pos hq))
      split_ifs <;> simp [Stat.neg]

/-- Natural numbers below `2^p` are representable: the rounding keeps them. -/
theorem roundMagnitude_natCast (p : Nat) (emin : ℤ) (n : Nat) (hn0 : n ≠ 0) (hn : n < 2 ^ p)
    (hemin : emin ≤ 0) : roundMagnitude p emin (n : ℚ) = n := by
  have hlog : Nat.log 2 n < p := Nat.log_lt_of_lt_pow hn0 hn
  have hmax : max (Int.log 2 (n : ℚ)) emin = (Nat.log 2 n : ℤ) := by
    rw [Int.log_natCast]
    exact max_eq_left (le_trans hemin (Int.natCast_nonneg _))
  obtain ⟨j, hj⟩ : ∃ j : Nat, (p : ℤ) - 1 - (Nat.log 2 n : ℤ) = j :=
    ⟨p - 1 - Nat.log 2 n, by omega⟩
  have he : (Nat.log 2 n : ℤ) - ((p : ℤ) - 1) = -(j : ℤ) := by omega
  unfold roundMagnitude
  rw [hmax, he, zpow_neg, zpow_natCast, div_inv_eq_mul]
  have : ((n : ℚ) * 2 ^ j) = (((n * 2 ^ j : Nat) : ℤ) : ℚ) := by push_cast; ring
  rw [this, roundHalfEven_intCast]
  push_cast
  field_simp

theorem roundTo_natCast (p : Nat) (emin emax : ℤ) (n : Nat) (hn : n < 2 ^ p)
    (hemin : emin ≤ 0) (he : (p : ℤ) ≤ emax + 1) : roundTo p emin emax (n : ℚ) = .num n := by
  by_cases hn0 : n = 0
  · subst hn0; simp [roundTo]
  · have hpos : (0 : ℚ) < n := by exact_mod_cast Nat.pos_of_ne_zero hn0
    have hne : (n : ℚ) ≠ 0 := ne_of_gt hpos
    unfold roundTo
    rw [if_neg hne, abs_of_pos hpos, roundMagnitude_natCast p emin n hn0 hn hemin]
    have hlt : ¬ (2 : ℚ) ^ (emax + 1) ≤ n := by
      rw [not_le]
      have h1 : (n : ℚ) < 2 ^ (p : ℤ) := by
        rw [zpow_natCast]; exact_mod_cast hn
      exact lt_of_lt_of_le h1 (zpow_le_zpow_right₀ (by norm_num) he)
    rw [if_neg hlt, if_pos hpos]

theorem round64_natCast (n : Nat) (hn : n < 2 ^ 53) : round64 (n : ℚ) = .num n :=
  roundTo_natCast 53 (-1022) 1023 n hn (by norm_num) (by norm_num)

theorem round32_natCast (n : Nat) (hn : n < 2 ^ 24) : round32 (n : ℚ) = .num n :=
  roundTo_natCast 24 (-126) 127 n hn (by norm_num) (by norm_num)

theorem round64_ofNat (n : Nat) [n.AtLeastTwo] (hn : n < 2 ^ 53) :
    round64 (no_index (OfNat.ofNat n : ℚ)) = .num (OfNat.ofNat n) := by
  have := round64_natCast n hn
  simpa using this

theorem round32_ofNat (n : Nat) [n.AtLeastTwo] (hn : n < 2 ^ 24) :
    round32 (no_index (OfNat.ofNat n : ℚ)) = .num (OfNat.ofNat n) := by
  have := round32_natCast n hn
  simpa using this

@[simp] theorem round64_zero : round64 0 = .num 0 := roundTo_zero _ _ _

@[simp] theorem round32_zero : round32 0 = .num 0 := roundTo_zero _ _ _

@[simp] theorem round64_one : round64 1 = .num 1 := by
  simpa using round64_natCast 1 (by norm_num)

@[simp] theorem round32_one : round32 1 = .num 1 := by
  simpa using round32_natCast 1 (by norm_num)

theorem round64_neg (q : ℚ) : round64 (-q) = Stat.neg (round64 q) := roundTo_neg _ _ _ q

theorem round32_neg (q : ℚ) : round32 (-q) = Stat.neg (round32 q) := roundTo_neg _ _ _ q

theorem Stat.add_num (a b : ℚ) : Stat.add (.num a) (.num b) = round64 (a + b) := rfl

theorem Stat.neg_num (a : ℚ) : Stat.neg (.num a) = .num (-a) := rfl

theorem Stat.sub_num (a b : ℚ) : Stat.sub (.num a) (.num b) = round64 (a - b) := by
  simp [Stat.sub, Stat.neg, Stat.add, sub_eq_add_neg]

theorem Stat.mul_num (a b : ℚ) : Stat.mul (.num a) (.num b) = round64 (a * b) := rfl

theorem Stat.div_num (a b : ℚ) (hb : b ≠ 0) :
    Stat.div (.num a) (.num b) = round64 (a / b) := by
  simp [Stat.div, hb]

theorem Stat.gt_num (a t : ℚ) : Stat.gt (.num a) t = decide (t < a) := rfl

theorem Stat.toFloat_num (a : ℚ) : Stat.toFloat (.num a) = round32 a := rfl

/-- A magnitude of at least `2^j`, with `2^j` on the grid of the format, is
rounded to at least `2^j`. -/
theorem roundMagnitude_ge (p : Nat) (emin : ℤ) (x : ℚ) (j : ℤ) (hx : (2 : ℚ) ^ j ≤ x)
    (hj : emin - ((p : ℤ) - 1) ≤ j) (hp : 1 ≤ p) : (2 : ℚ) ^ j ≤ roundMagnitude p emin x := by
  have h2 : (0 : ℚ) < 2 := by norm_num
  have hx0 : 0 < x := lt_of_lt_of_le (zpow_pos h2 j) hx
  have hL : (2 : ℚ) ^ Int.log 2 x ≤ x := by
    simpa using Int.zpow_log_le_self (b := 2) (by norm_num) hx0
  have hjL : j ≤ Int.log 2 x :=
    (Int.zpow_le_iff_le_log (b := 2) (by norm_num) hx0).1 (by simpa using hx)
  obtain ⟨i, hei, hji, hix⟩ : ∃ i : ℤ, max (Int.log 2 x) emin - ((p : ℤ) - 1) ≤ i ∧ j ≤ i ∧
      (2 : ℚ) ^ i ≤ x := by
    by_cases hc : emin ≤ Int.log 2 x
    · refine ⟨Int.log 2 x, ?_, hjL, hL⟩
      rw [max_eq_left hc]
      have : (1 : ℤ) ≤ p := by exact_mod_cast hp
      omega
    · refine ⟨j, ?_, le_refl _, hx⟩
      rw [max_eq_right (le_of_lt (not_le.1 hc))]
      exact hj
  obtain ⟨k, hk⟩ : ∃ k : Nat, i - (max (Int.log 2 x) emin - ((p : ℤ) - 1)) = k :=
    ⟨(i - (max (Int.log 2 x) emin - ((p : ℤ) - 1))).toNat, by omega⟩
  unfold roundMagnitude
  generalize max (Int.log 2 x) emin - ((p : ℤ) - 1) = e at hei hk ⊢
  have he0 : (0 : ℚ) < 2 ^ e := zpow_pos h2 e
  have hm : (((2 ^ k : ℕ) : ℤ) : ℚ) ≤ x / 2 ^ e := by
    rw [le_div_iff₀ he0]
    have : (((2 ^ k : ℕ) : ℤ) : ℚ) * 2 ^ e = 2 ^ i := by
      push_cast
      rw [← zpow_natCast, ← zpow_add₀ (ne_of_gt h2), ← hk]
      congr 1; omega
    rw [this]; exact hix
  have hfl : ((2 ^ k : ℕ) : ℤ) ≤ roundHalfEven (x / 2 ^ e) :=
    le_trans (Int.le_floor.2 hm) (floor_le_roundHalfEven _)
  have hq : (((2 ^ k : ℕ) : ℤ) : ℚ) ≤ (roundHalfEven (x / 2 ^ e) : ℚ) := by exact_mod_cast hfl
  calc (2 : ℚ) ^ j ≤ 2 ^ i := zpow_le_zpow_right₀ (by norm_num) hji
    _ = (((2 ^ k : ℕ) : ℤ) : ℚ) * 2 ^ e := by
      push_cast
      rw [← zpow_natCast, ← zpow_add₀ (ne_of_gt h2), ← hk]
      congr 1; omega
    _ ≤ (roundHalfEven (x / 2 ^ e) : ℚ) * 2 ^ e := mul_le_mul_of_nonneg_right hq (le_of_lt he0)

/-- A positive exact result of at least `2^j` rounds to infinity or to a
number of at least `2^j`. -/
theorem roundTo_of_ge (p : Nat) (emin emax : ℤ) (q : ℚ) (j : ℤ) (hq : (2 : ℚ) ^ j ≤ q)
    (hj : emin - ((p : ℤ) - 1) ≤ j) (hp : 1 ≤ p) :
    roundTo p emin emax q = .pinf ∨ ∃ r, roundTo p emin emax q = .num r ∧ (2 : ℚ) ^ j ≤ r := by
  have hq0 : 0 < q := lt_of_lt_of_le (zpow_pos (by norm_num) j) hq
  unfold roundTo
  rw [if_neg (ne_of_gt hq0), abs_of_pos hq0]
  by_cases ho : (2 : ℚ) ^ (emax + 1) ≤ roundMagnitude p emin q
  · left; simp [ho, hq0]
  · right
    refine ⟨roundMagnitude p emin q, by simp [ho, hq0], roundMagnitude_ge p emin q j hq hj hp⟩

theorem Stat.isFloat_num (q : ℚ) (h : (Stat.num q).isFloat) :
    ∃ k : ℤ, q = k * 2 ^ (-149 : ℤ) := by
  refine ⟨(q * 2 ^ 149).num, ?_⟩
  have := (Rat.den_eq_one_iff _).1 h
  rw [this, zpow_neg]
  norm_num
  ring

theorem Stat.less_zero_toFloat (r : ℚ) (hr : (2 : ℚ) ^ (-149 : ℤ) ≤ r) :
    Stat.less (.num 0) (Stat.toFloat (.num r)) = true := by
  rw [Stat.toFloat_num]
  rcases roundTo_of_ge 24 (-126) 127 r (-149) hr (by norm_num) (by norm_num) with h | ⟨r', h, hr'⟩
  · rw [round32, h]; rfl
  · rw [round32, h]
    have : (0 : ℚ) < r' := lt_of_lt_of_le (zpow_pos (by norm_num) _) hr'
    simp [Stat.less, this]

/-- The absolute difference of two distinct float values, neither of them
not-a-number, is positive. -/
theorem AbsoluteValueDifference2_pos (a b : Stat) (ha : a ≠ .nan) (hb : b ≠ .nan)
    (hfa : a.isFloat) (hfb : b.isFloat) (hab : a ≠ b) :
    Stat.less (.num 0) (AbsoluteValueDifference2 a b) = true := by
  cases a with
  | nan => exact absurd rfl ha
  | pinf =>
    cases b with
    | nan => exact absurd rfl hb
    | pinf => exact absurd rfl hab
    | ninf => rfl
    | num b => rfl
  | ninf =>
    cases b with
    | nan => exact absurd rfl hb
    | pinf => rfl
    | ninf => exact absurd rfl hab
    | num b => rfl
  | num a =>
    cases b with
    | nan => exact absurd rfl hb
    | pinf => rfl
    | ninf => rfl
    | num b =>
      obtain ⟨ka, hka⟩ := Stat.isFloat_num a hfa
      obtain ⟨kb, hkb⟩ := Stat.isFloat_num b hfb
      have hne : a - b ≠ 0 := sub_ne_zero.2 (fun h => hab (by rw [h]))
      have hε : (0 : ℚ) < 2 ^ (-149 : ℤ) := zpow_pos (by norm_num) _
      have hk : ka ≠ kb := fun h => hne (by rw [hka, hkb, h]; ring)
      unfold AbsoluteValueDifference2
      rw [Stat.sub_num]
      rcases lt_or_gt_of_ne hk with hlt | hgt
      · -- a - b is negative
        have h1 : (1 : ℚ) ≤ ((kb - ka : ℤ) : ℚ) := by exact_mod_cast (by omega : (1 : ℤ) ≤ kb - ka)
        have hge : (2 : ℚ) ^ (-149 : ℤ) ≤ -(a - b) := by
          have : -(a - b) = ((kb - ka : ℤ) : ℚ) * 2 ^ (-149 : ℤ) := by
            rw [hka, hkb]; push_cast; ring
          rw [this]
          exact le_mul_of_one_le_left (le_of_lt hε) h1
        have hr : round64 (a - b) = Stat.neg (round64 (-(a - b))) := by
          rw [round64_neg]; cases round64 (a - b) <;> simp [Stat.neg]
        rw [hr]
        rcases roundTo_of_ge 53 (-1022) 1023 (-(a - b)) (-149) hge (by norm_num) (by norm_num)
          with h | ⟨r, h, hr'⟩
        · rw [round64, h]; rfl
        · rw [round64, h]
          have hr0 : (0 : ℚ) < r := lt_of_lt_of_le hε hr'
          have : ¬ (0 : ℚ) < -r := by linarith
          simp only [Stat.neg, Stat.gt, this, decide_False, Bool.false_eq_true, if_false, neg_neg]
          exact Stat.less_zero_toFloat r hr'
      · have h1 : (1 : ℚ) ≤ ((ka - kb : ℤ) : ℚ) := by exact_mod_cast (by omega : (1 : ℤ) ≤ ka - kb)
        have hge : (2 : ℚ) ^ (-149 : ℤ) ≤ a - b := by
          have : a - b = ((ka - kb : ℤ) : ℚ) * 2 ^ (-149 : ℤ) := by
            rw [hka, hkb]; push_cast; ring
          rw [this]
          exact le_mul_of_one_le_left (le_of_lt hε) h1
        rcases roundTo_of_ge 53 (-1022) 1023 (a - b) (-149) hge (by norm_num) (by norm_num)
          with h | ⟨r, h, hr'⟩
        · rw [round64, h]; rfl
        · rw [round64, h]
          have hr0 : (0 : ℚ) < r := lt_of_lt_of_le hε hr'
          simp only [Stat.gt, hr0, decide_True, if_true]
          exact Stat.less_zero_toFloat r hr'

theorem AbsoluteValueDifference2_self (a : ℚ) :
    AbsoluteValueDifference2 (.num a) (.num a) = .num 0 := by
  simp [AbsoluteValueDifference2, Stat.sub_num, Stat.gt, Stat.neg, Stat.toFloat]
/-! ## Lemmas on images and accumulators -/

theorem Image.mem_pixels_iff {α : Type} (img : Image α) (v : α) :
    v ∈ img.pixels ↔ ∃ x y z, img.inside x y z ∧ img.pixel x y z = v := by
  simp only [Image.pixels, Image.inside, List.mem_flatMap, List.mem_map, List.mem_range]
  constructor
  · rintro ⟨z, hz, y, hy, x, hx, h⟩
    exact ⟨x, y, z, ⟨hx, hy, hz⟩, h⟩
  · rintro ⟨x, y, z, ⟨hx, hy, hz⟩, h⟩
    exact ⟨z, hz, y, hy, x, hx, h⟩

theorem Image.pixels_eq_nil_iff {α : Type} (img : Image α) :
    img.pixels = [] ↔ img.size.1 = 0 ∨ img.size.2.1 = 0 ∨ img.size.2.2 = 0 := by
  rw [List.eq_nil_iff_forall_not_mem]
  constructor
  · intro h
    by_contra hne
    push_neg at hne
    obtain ⟨hx, hy, hz⟩ := hne
    exact h (img.pixel 0 0 0) ((img.mem_pixels_iff _).2
      ⟨0, 0, 0, ⟨Nat.pos_of_ne_zero hx, Nat.pos_of_ne_zero hy, Nat.pos_of_ne_zero hz⟩, rfl⟩)
  · intro h v hv
    obtain ⟨x, y, z, ⟨hx, hy, hz⟩, -⟩ := (img.mem_pixels_iff v).1 hv
    omega

theorem length_flatMap_range_const {α : Type} (f : Nat → List α) (c : Nat)
    (h : ∀ i, (f i).length = c) (n : Nat) : ((List.range n).flatMap f).length = n * c := by
  induction n with
  | zero => simp
  | succ k ih =>
    rw [List.range_succ, List.flatMap_append, List.length_append, ih]
    simp [h, Nat.succ_mul]

/-- Number of samples of an image: the product of its extents. -/
theorem Image.pixels_length {α : Type} (img : Image α) :
    img.pixels.length = img.size.2.2 * (img.size.2.1 * img.size.1) := by
  unfold Image.pixels
  apply length_flatMap_range_const
  intro z
  apply length_flatMap_range_const
  intro y
  simp

theorem FLT_MAX_pos : (0 : ℚ) < FLT_MAX := by
  unfold FLT_MAX; norm_num

theorem Stat.lessEq_trans (a b c : Stat) (h1 : Stat.lessEq a b = true)
    (h2 : Stat.lessEq b c = true) : Stat.lessEq a c = true := by
  cases a <;> cases b <;> cases c <;> simp_all [Stat.lessEq]
  exact le_trans h1 h2

theorem Stat.lessEq_refl (a : Stat) (ha : a ≠ .nan) : Stat.lessEq a a = true := by
  cases a <;> simp_all [Stat.lessEq]

theorem Stat.lessEq_of_less (a b : Stat) (h : Stat.less a b = true) :
    Stat.lessEq a b = true := by
  cases a <;> cases b <;> simp_all [Stat.lessEq, Stat.less]
  exact le_of_lt h

theorem Stat.lessEq_of_not_less (a b : Stat) (ha : a ≠ .nan) (hb : b ≠ .nan)
    (h : ¬ Stat.less a b = true) : Stat.lessEq b a = true := by
  cases a <;> cases b <;> simp_all [Stat.lessEq, Stat.less]

theorem Stat.less_of_less_of_lessEq (a b c : Stat) (h1 : Stat.less a b = true)
    (h2 : Stat.lessEq b c = true) : Stat.less a c = true := by
  cases a <;> cases b <;> cases c <;> simp_all [Stat.lessEq, Stat.less]
  exact lt_of_lt_of_le h1 h2

theorem Stat.ne_nan_of_less (a b : Stat) (h : Stat.less a b = true) : a ≠ .nan ∧ b ≠ .nan := by
  cases a <;> cases b <;> simp_all [Stat.less]

/-- The running maximum started at a value that is not not-a-number: it is
never not-a-number, it is at least the start value and at least every sample
that is not not-a-number, and it is the start value or one of the samples. -/
theorem foldl_max_spec (xs : List Stat) (m : Stat) (hm : m ≠ .nan) :
    xs.foldl (fun m v => if m < v then v else m) m ≠ .nan ∧
    Stat.lessEq m (xs.foldl (fun m v => if m < v then v else m) m) = true ∧
    (∀ x ∈ xs, x ≠ .nan → Stat.lessEq x (xs.foldl (fun m v => if m < v then v else m) m) = true) ∧
    (xs.foldl (fun m v => if m < v then v else m) m = m ∨
      xs.foldl (fun m v => if m < v then v else m) m ∈ xs) := by
  induction xs generalizing m with
  | nil => exact ⟨hm, Stat.lessEq_refl m hm, fun _ h _ => absurd h (List.not_mem_nil _), Or.inl rfl⟩
  | cons y ys ih =>
    simp only [List.foldl_cons]
    by_cases hlt : m < y
    · rw [if_pos hlt]
      have hy : y ≠ .nan := (Stat.ne_nan_of_less m y hlt).2
      obtain ⟨h1, h2, h3, h4⟩ := ih y hy
      refine ⟨h1, Stat.lessEq_trans _ _ _ (Stat.lessEq_of_less m y hlt) h2, ?_, ?_⟩
      · intro x hx hxn
        rcases List.mem_cons.1 hx with rfl | hx'
        · exact h2
        · exact h3 x hx' hxn
      · rcases h4 with h | h
        · right; rw [h]; exact List.mem_cons_self _ _
        · right; exact List.mem_cons_of_mem _ h
    · rw [if_neg hlt]
      obtain ⟨h1, h2, h3, h4⟩ := ih m hm
      refine ⟨h1, h2, ?_, ?_⟩
      · intro x hx hxn
        rcases List.mem_cons.1 hx with rfl | hx'
        · exact Stat.lessEq_trans _ _ _ (Stat.lessEq_of_not_less m x hm hxn hlt) h2
        · exact h3 x hx' hxn
      · rcases h4 with h | h
        · left; exact h
        · right; exact List.mem_cons_of_mem _ h

/-- The running minimum started at a value that is not not-a-number: it is
never not-a-number, it is at most the start value and at most every sample
that is not not-a-number, and it is the start value or one of the samples. -/
theorem foldl_min_spec (xs : List Stat) (m : Stat) (hm : m ≠ .nan) :
    xs.foldl (fun m v => if v < m then v else m) m ≠ .nan ∧
    Stat.lessEq (xs.foldl (fun m v => if v < m then v else m) m) m = true ∧
    (∀ x ∈ xs, x ≠ .nan → Stat.lessEq (xs.foldl (fun m v => if v < m then v else m) m) x = true) ∧
    (xs.foldl (fun m v => if v < m then v else m) m = m ∨
      xs.foldl (fun m v => if v < m then v else m) m ∈ xs) := by
  induction xs generalizing m with
  | nil => exact ⟨hm, Stat.lessEq_refl m hm, fun _ h _ => absurd h (List.not_mem_nil _), Or.inl rfl⟩
  | cons y ys ih =>
    simp only [List.foldl_cons]
    by_cases hlt : y < m
    · rw [if_pos hlt]
      have hy : y ≠ .nan := (Stat.ne_nan_of_less y m hlt).1
      obtain ⟨h1, h2, h3, h4⟩ := ih y hy
      refine ⟨h1, Stat.lessEq_trans _ _ _ h2 (Stat.lessEq_of_less y m hlt), ?_, ?_⟩
      · intro x hx hxn
        rcases List.mem_cons.1 hx with rfl | hx'
        · exact h2
        · exact h3 x hx' hxn
      · rcases h4 with h | h
        · right; rw [h]; exact List.mem_cons_self _ _
        · right; exact List.mem_cons_of_mem _ h
    · rw [if_neg hlt]
      obtain ⟨h1, h2, h3, h4⟩ := ih m hm
      refine ⟨h1, h2, ?_, ?_⟩
      · intro x hx hxn
        rcases List.mem_cons.1 hx with rfl | hx'
        · exact Stat.lessEq_trans _ _ _ h2 (Stat.lessEq_of_not_less x m hxn hm hlt)
        · exact h3 x hx' hxn
      · rcases h4 with h | h
        · left; exact h
        · right; exact List.mem_cons_of_mem _ h

theorem statMaximum_ge (xs : List Stat) (x : Stat) (hx : x ∈ xs) (hxn : x ≠ .nan) :
    Stat.lessEq x (statMaximum xs) = true :=
  (foldl_max_spec xs (-FLT_MAX) (by simp [Stat.neg])).2.2.1 x hx hxn

theorem statSum_zero (xs : List Stat) (h : ∀ x ∈ xs, x = .num 0) : statSum xs = .num 0 := by
  have key : ∀ ys : List Stat, (∀ x ∈ ys, x = .num 0) →
      ys.foldl (fun s v => Stat.add s v) (.num 0) = .num 0 := by
    intro ys
    induction ys with
    | nil => intro _; rfl
    | cons y ys ih =>
      intro hy
      rw [List.foldl_cons, hy y (List.mem_cons_self _ _), Stat.add_num]
      simpa using ih fun x hx => hy x (List.mem_cons_of_mem _ hx)
  simpa [statSum] using key xs h

theorem sumOfSquares_zero (xs : List Stat) (h : ∀ x ∈ xs, x = .num 0) :
    sumOfSquares xs = .num 0 := by
  have key : ∀ ys : List Stat, (∀ x ∈ ys, x = .num 0) →
      ys.foldl (fun s v => Stat.add s (Stat.mul v v)) (.num 0) = .num 0 := by
    intro ys
    induction ys with
    | nil => intro _; rfl
    | cons y ys ih =>
      intro hy
      rw [List.foldl_cons, hy y (List.mem_cons_self _ _), Stat.mul_num]
      simpa [Stat.add_num] using ih fun x hx => hy x (List.mem_cons_of_mem _ hx)
  simpa [sumOfSquares] using key xs h

theorem statMaximum_zero (xs : List Stat) (hne : xs ≠ []) (h : ∀ x ∈ xs, x = .num 0) :
    statMaximum xs = .num 0 := by
  obtain ⟨x, hx⟩ := List.exists_mem_of_ne_nil _ hne
  obtain ⟨-, -, h3, h4⟩ := foldl_max_spec xs (-FLT_MAX) (by simp [Stat.neg])
  rcases h4 with h4 | h4
  · have := h3 x hx (by rw [h x hx]; simp)
    rw [h4, h x hx] at this
    have hp := FLT_MAX_pos
    simp [Stat.neg, Stat.lessEq] at this
    linarith
  · exact h _ h4

theorem statMinimum_zero (xs : List Stat) (hne : xs ≠ []) (h : ∀ x ∈ xs, x = .num 0) :
    statMinimum xs = .num 0 := by
  obtain ⟨x, hx⟩ := List.exists_mem_of_ne_nil _ hne
  obtain ⟨-, -, h3, h4⟩ := foldl_min_spec xs (FLT_MAX : ℚ) (by simp)
  rcases h4 with h4 | h4
  · have := h3 x hx (by rw [h x hx]; simp)
    rw [h4, h x hx] at this
    have hp := FLT_MAX_pos
    simp [Stat.lessEq] at this
    linarith
  · exact h _ h4

/-- Statistics of a non-empty image whose samples are all zero: mean, maximum
and minimum are zero; sigma is zero when there are at least two samples and
not-a-number when there is exactly one. -/
theorem statistics_of_zero_image (img : Image Stat) (hne : img.pixels ≠ [])
    (h0 : ∀ v ∈ img.pixels, v = .num 0) :
    StatisticsImageFilter img =
      { mean := .num 0, maximum := .num 0, minimum := .num 0,
        sigma := if img.pixels.length ≤ 1 then .nan else .sqrt 0 } := by
  have hlen : img.pixels.length ≠ 0 := fun h => hne (List.length_eq_zero.1 h)
  have hlenq : (img.pixels.length : ℚ) ≠ 0 := by exact_mod_cast hlen
  have hmean : statMean img.pixels = .num 0 := by
    rw [statMean, statSum_zero _ h0, Stat.div_num _ _ hlenq]
    simp
  have hvar : (statVariance img.pixels).sqrt =
      if img.pixels.length ≤ 1 then Root.nan else Root.sqrt 0 := by
    rw [statVariance, statSum_zero _ h0, sumOfSquares_zero _ h0, Stat.mul_num, mul_zero,
      round64_zero, Stat.div_num _ _ hlenq]
    simp only [round64_zero, zero_div, Stat.sub_num, sub_zero, Stat.ofNat_eq,
      Nat.cast_one]
    by_cases h1 : img.pixels.length ≤ 1
    · have : img.pixels.length = 1 := by omega
      simp [this, Stat.div, Stat.sqrt]
    · rw [if_neg h1]
      have hge : (2 : ℚ) ^ (0 : ℤ) ≤ (img.pixels.length : ℚ) - 1 := by
        have : (2 : ℚ) ≤ img.pixels.length := by exact_mod_cast (by omega : 2 ≤ img.pixels.length)
        simp; linarith
      rcases roundTo_of_ge 53 (-1022) 1023 _ 0 hge (by norm_num) (by norm_num) with h | ⟨r, h, hr⟩
      · rw [round64, h]; simp [Stat.div, Stat.sqrt]
      · rw [round64, h]
        have hr0 : r ≠ 0 := by
          have : (0 : ℚ) < r := lt_of_lt_of_le (by norm_num) hr
          exact ne_of_gt this
        rw [Stat.div_num _ _ hr0]
        simp [Stat.sqrt]
  simp only [StatisticsImageFilter, hmean, hvar, statMaximum_zero _ hne h0,
    statMinimum_zero _ hne h0]

theorem statistics_of_empty_image (img : Image Stat) (h : img.pixels = []) :
    StatisticsImageFilter img = ⟨.nan, -FLT_MAX, FLT_MAX, .nan⟩ := by
  simp [StatisticsImageFilter, h, statMean, statVariance, statSum, sumOfSquares, statMaximum,
    statMinimum, Stat.div, Stat.mul_num, Stat.sub, Stat.neg, Stat.add, Stat.sqrt]

/-- Past the check on the outside switch and the two size checks `main`
computes the difference image and its statistics and lets the tolerance check
decide. -/
theorem main_of_congruent (a : Arguments)
    (hargs : outsideWithoutMask a.maskImage.isSome a.maskOutside = false)
    (hAB : a.imageA.size = a.imageB.size)
    (hM : ∀ mask, a.maskImage = some mask → a.imageA.size = mask.size) :
    main a =
      { exitCode := verdict
          (StatisticsImageFilter
            (AbsoluteValueDifferenceImageFilter (maskedImageAOutput a) (maskedImageBOutput a)))
          a.meanTolerance a.maxTolerance a.minTolerance a.sigmaTolerance
        cerr :=
          if exceedsTolerance
            (StatisticsImageFilter
              (AbsoluteValueDifferenceImageFilter (maskedImageAOutput a) (maskedImageBOutput a)))
            a.meanTolerance a.maxTolerance a.minTolerance a.sigmaTolerance
          then [toleranceMessage] else []
        masked := a.maskImage.map fun _ => (maskedImageAOutput a, maskedImageBOutput a)
        difference :=
          some (AbsoluteValueDifferenceImageFilter (maskedImageAOutput a) (maskedImageBOutput a))
        cout := some (StatisticsImageFilter
          (AbsoluteValueDifferenceImageFilter (maskedImageAOutput a) (maskedImageBOutput a))) } := by
  have h2 : (a.maskImage.any fun mask =>
      decide (a.imageA.size ≠ mask.size ∨ a.imageB.size ≠ mask.size)) = false := by
    cases hm : a.maskImage with
    | none => rfl
    | some mask =>
      have h := hM mask hm
      simp [Option.any, h, ← hAB]
  unfold main
  rw [hargs, if_neg (by simp), if_neg (not_not.2 hAB)]
  simp only [h2]
  rfl

theorem main_exitCode_success_iff (a : Arguments) :
    (main a).exitCode = .EXIT_SUCCESS ↔
      ∃ s, (main a).cout = some s ∧
        verdict s a.meanTolerance a.maxTolerance a.minTolerance a.sigmaTolerance =
          .EXIT_SUCCESS := by
  unfold main
  split_ifs <;> simp

theorem verdict_success_iff (s : Summary) (meanTolerance maxTolerance minTolerance sigmaTolerance : ℚ) :
    verdict s meanTolerance maxTolerance minTolerance sigmaTolerance = .EXIT_SUCCESS ↔
      (s.mean.gt meanTolerance = false ∧ ¬ s.maximum > maxTolerance ∧
        ¬ s.minimum > minTolerance ∧ s.sigma.gt sigmaTolerance = false) := by
  unfold verdict exceedsTolerance
  by_cases h1 : s.mean.gt meanTolerance = true <;> by_cases h2 : s.maximum > maxTolerance <;>
    by_cases h3 : s.minimum > minTolerance <;> by_cases h4 : s.sigma.gt sigmaTolerance = true <;>
    simp [h1, h2, h3, h4]

/-- Comparison `Root.gt` is the strict comparison of the real square root. -/
theorem Root.gt_sqrt_iff (v t : ℚ) (hv : 0 ≤ v) :
    Root.gt (.sqrt v) t = true ↔ (t : ℝ) < Real.sqrt (v : ℝ) := by
  have hv' : (0 : ℝ) ≤ (v : ℝ) := by exact_mod_cast hv
  simp only [Root.gt, decide_eq_true_eq]
  constructor
  · rintro (h | h)
    · have : (t : ℝ) < 0 := by exact_mod_cast h
      exact lt_of_lt_of_le this (Real.sqrt_nonneg _)
    · by_cases ht : t < 0
      · have : (t : ℝ) < 0 := by exact_mod_cast ht
        exact lt_of_lt_of_le this (Real.sqrt_nonneg _)
      · have ht' : (0 : ℝ) ≤ (t : ℝ) := by exact_mod_cast not_lt.1 ht
        rw [Real.lt_sqrt ht']
        have : ((t * t : ℚ) : ℝ) < (v : ℝ) := by exact_mod_cast h
        push_cast at this
        nlinarith [this]
  · intro h
    by_cases ht : t < 0
    · exact Or.inl ht
    · right
      have ht' : (0 : ℝ) ≤ (t : ℝ) := by exact_mod_cast not_lt.1 ht
      rw [Real.lt_sqrt ht'] at h
      have : ((t * t : ℚ) : ℝ) < (v : ℝ) := by push_cast; nlinarith [h]
      exact_mod_cast this

/-- Comparison `Root.le` is the comparison of the real square root. -/
theorem Root.le_sqrt_iff (v t : ℚ) (hv : 0 ≤ v) :
    Root.le (.sqrt v) t = true ↔ Real.sqrt (v : ℝ) ≤ (t : ℝ) := by
  have h := Root.gt_sqrt_iff v t hv
  have hb : Root.le (.sqrt v) t = !Root.gt (.sqrt v) t := by
    simp only [Root.le, Root.gt]
    by_cases h1 : t < 0 <;> by_cases h2 : t * t < v <;> simp [h1, h2, not_le.2, not_lt.1, le_of_lt]
  rw [hb, ← not_lt, ← h]
  simp
/-- A difference sample inside the extent that is above `maxTolerance` makes
the run fail. -/
theorem main_fails_of_difference_gt (a : Arguments)
    (hargs : outsideWithoutMask a.maskImage.isSome a.maskOutside = false)
    (hAB : a.imageA.size = a.imageB.size)
    (hM : ∀ mask, a.maskImage = some mask → a.imageA.size = mask.size) (x y z : Nat)
    (hin : (AbsoluteValueDifferenceImageFilter (maskedImageAOutput a)
      (maskedImageBOutput a)).inside x y z)
    (h : Stat.less (.num a.maxTolerance) ((AbsoluteValueDifferenceImageFilter
      (maskedImageAOutput a) (maskedImageBOutput a)).pixel x y z) = true) :
    (main a).exitCode = .EXIT_FAILURE := by
  rw [main_of_congruent a hargs hAB hM]
  have hmem := (Image.mem_pixels_iff _ _).2 ⟨x, y, z, hin, rfl⟩
  have hmax := statMaximum_ge _ _ hmem (Stat.ne_nan_of_less _ _ h).2
  have : (StatisticsImageFilter (AbsoluteValueDifferenceImageFilter
      (maskedImageAOutput a) (maskedImageBOutput a))).maximum > (a.maxTolerance : Stat) :=
    Stat.less_of_less_of_lessEq _ _ _ h hmax
  simp [verdict, exceedsTolerance, this]

theorem maskedImageAOutput_size (a : Arguments) : (maskedImageAOutput a).size = a.imageA.size := by
  unfold maskedImageAOutput maskImageFilterA
  cases a.maskImage with
  | none => rfl
  | some mask => cases a.maskOutside <;> rfl

/-- A run whose difference image is zero at every sample inside a non-empty
extent passes under all-zero ceilings. -/
theorem main_passes_of_zero_difference (a : Arguments)
    (hargs : outsideWithoutMask a.maskImage.isSome a.maskOutside = false)
    (hAB : a.imageA.size = a.imageB.size)
    (hM : ∀ mask, a.maskImage = some mask → a.imageA.size = mask.size)
    (hne : 0 < a.imageA.size.1 ∧ 0 < a.imageA.size.2.1 ∧ 0 < a.imageA.size.2.2)
    (h0 : ∀ x y z, a.imageA.inside x y z →
      (AbsoluteValueDifferenceImageFilter (maskedImageAOutput a)
        (maskedImageBOutput a)).pixel x y z = .num 0)
    (hmax : a.maxTolerance = 0) (hmin : a.minTolerance = 0) (hmean : a.meanTolerance = 0)
    (hsigma : a.sigmaTolerance = 0) :
    (main a).exitCode = .EXIT_SUCCESS ∧
    (main a).cout = some
      { mean := .num 0, maximum := .num 0, minimum := .num 0,
        sigma := if a.imageA.pixels.length ≤ 1 then .nan else .sqrt 0 } := by
  have hsize : (AbsoluteValueDifferenceImageFilter (maskedImageAOutput a)
      (maskedImageBOutput a)).size = a.imageA.size := maskedImageAOutput_size a
  have hlen : (AbsoluteValueDifferenceImageFilter (maskedImageAOutput a)
      (maskedImageBOutput a)).pixels.length = a.imageA.pixels.length := by
    rw [Image.pixels_length, Image.pixels_length, hsize]
  have hnil : (AbsoluteValueDifferenceImageFilter (maskedImageAOutput a)
      (maskedImageBOutput a)).pixels ≠ [] := by
    rw [Ne, Image.pixels_eq_nil_iff, hsize]
    omega
  have hall : ∀ v ∈ (AbsoluteValueDifferenceImageFilter (maskedImageAOutput a)
      (maskedImageBOutput a)).pixels, v = .num 0 := by
    intro v hv
    obtain ⟨x, y, z, hin, rfl⟩ := (Image.mem_pixels_iff _ _).1 hv
    exact h0 x y z (by simpa [Image.inside, hsize] using hin)
  have hs := statistics_of_zero_image _ hnil hall
  rw [hlen] at hs
  rw [main_of_congruent a hargs hAB hM, hs]
  refine ⟨?_, rfl⟩
  by_cases h1 : a.imageA.pixels.length ≤ 1 <;>
    simp [verdict, exceedsTolerance, Stat.gt, Root.gt, Stat.lt_iff, Stat.less, hmax, hmin, hmean,
      hsigma, h1]

/-- The option `maskValue` has no influence on the masked images. -/
theorem maskValue_not_used (a : Arguments) (v : ℚ) :
    maskedImageAOutput { a with maskValue := v } = maskedImageAOutput a ∧
    maskedImageBOutput { a with maskValue := v } = maskedImageBOutput a :=
  ⟨rfl, rfl⟩

theorem AbsoluteValueDifference2_5_5 : AbsoluteValueDifference2 5 5 = .num 0 :=
  AbsoluteValueDifference2_self _

theorem AbsoluteValueDifference2_5_7 : AbsoluteValueDifference2 5 7 = .num 2 := by
  simp only [AbsoluteValueDifference2, Stat.ofNat_eq, Nat.cast_ofNat, Stat.sub_num]
  norm_num [round64_neg, round64_ofNat, round32_ofNat, Stat.neg, Stat.gt, Stat.toFloat]

theorem AbsoluteValueDifference2_5_0 : AbsoluteValueDifference2 5 0 = .num 5 := by
  simp only [AbsoluteValueDifference2, Stat.ofNat_eq, Nat.cast_ofNat, Nat.cast_zero, Stat.sub_num]
  norm_num [round64_ofNat, round32_ofNat, Stat.gt, Stat.toFloat]

theorem AbsoluteValueDifference2_2_0 : AbsoluteValueDifference2 2 0 = .num 2 := by
  simp only [AbsoluteValueDifference2, Stat.ofNat_eq, Nat.cast_ofNat, Nat.cast_zero, Stat.sub_num]
  norm_num [round64_ofNat, round32_ofNat, Stat.gt, Stat.toFloat]

theorem AbsoluteValueDifference2_0_0 : AbsoluteValueDifference2 0 0 = .num 0 :=
  AbsoluteValueDifference2_self _

theorem AbsoluteValueDifference2_nan_5 : AbsoluteValueDifference2 .nan 5 = .nan := rfl

theorem AbsoluteValueDifference2_pinf_pinf : AbsoluteValueDifference2 .pinf .pinf = .nan := rfl

theorem oneVoxel_difference_pixels :
    (AbsoluteValueDifferenceImageFilter (maskedImageAOutput oneVoxelArgs)
      (maskedImageBOutput oneVoxelArgs)).pixels = [AbsoluteValueDifference2 5 5] := rfl

theorem oneVoxel_summary :
    StatisticsImageFilter (AbsoluteValueDifferenceImageFilter (maskedImageAOutput oneVoxelArgs)
      (maskedImageBOutput oneVoxelArgs)) = ⟨.num 0, 0, 0, .nan⟩ := by
  have h := statistics_of_zero_image (AbsoluteValueDifferenceImageFilter
    (maskedImageAOutput oneVoxelArgs) (maskedImageBOutput oneVoxelArgs))
    (by rw [oneVoxel_difference_pixels]; simp)
    (by rw [oneVoxel_difference_pixels, AbsoluteValueDifference2_5_5]; simp)
  rw [h, oneVoxel_difference_pixels]
  simp

theorem oneVoxel_main :
    main oneVoxelArgs =
      { exitCode := .EXIT_SUCCESS, cerr := [], masked := none,
        difference := some (AbsoluteValueDifferenceImageFilter (maskedImageAOutput oneVoxelArgs)
          (maskedImageBOutput oneVoxelArgs)),
        cout := some ⟨.num 0, 0, 0, .nan⟩ } := by
  rw [main_of_congruent oneVoxelArgs rfl rfl (fun _ h => by cases h), oneVoxel_summary]
  simp [verdict, exceedsTolerance, oneVoxelArgs, Stat.gt, Root.gt, Stat.lt_iff, Stat.less]

theorem scenario2_difference_pixels :
    (AbsoluteValueDifferenceImageFilter (maskedImageAOutput scenario2Args)
      (maskedImageBOutput scenario2Args)).pixels = List.replicate 8 (AbsoluteValueDifference2 5 7) :=
  rfl

theorem scenario2_summary :
    StatisticsImageFilter (AbsoluteValueDifferenceImageFilter (maskedImageAOutput scenario2Args)
      (maskedImageBOutput scenario2Args)) = ⟨.num 2, 2, 2, .sqrt 0⟩ := by
  rw [StatisticsImageFilter, scenario2_difference_pixels, AbsoluteValueDifference2_5_7]
  simp only [List.replicate, statMean, statVariance, statSum, sumOfSquares, statMaximum, statMinimum,
    List.foldl, Stat.ofNat_eq, Nat.cast_ofNat, Nat.cast_zero, Nat.cast_one, Stat.add_num,
    Stat.mul_num, Stat.sub_num, List.length_cons, List.length_nil]
  norm_num [round64_ofNat, Stat.add_num, Stat.mul_num, Stat.sub_num, Stat.div, Stat.sqrt,
    Stat.lt_iff, Stat.less, Stat.neg, FLT_MAX]

theorem scenario2_main :
    main scenario2Args =
      { exitCode := .EXIT_FAILURE, cerr := [toleranceMessage], masked := none,
        difference := some (AbsoluteValueDifferenceImageFilter (maskedImageAOutput scenario2Args)
          (maskedImageBOutput scenario2Args)),
        cout := some ⟨.num 2, 2, 2, .sqrt 0⟩ } := by
  rw [main_of_congruent scenario2Args rfl rfl (fun _ h => by cases h), scenario2_summary]
  simp [verdict, exceedsTolerance, scenario2Args, Stat.gt, Root.gt, Stat.lt_iff, Stat.less]
/-- Without rounding the accumulated sum is the exact sum. -/
theorem foldl_add_exact (qs : List ℚ) (s0 : ℚ)
    (h : ∀ k, round64 (s0 + (qs.take k).sum) = .num (s0 + (qs.take k).sum)) :
    (qs.map Stat.num).foldl (fun s v => Stat.add s v) (.num s0) = .num (s0 + qs.sum) := by
  induction qs generalizing s0 with
  | nil => simp
  | cons q qs ih =>
    have h1 := h 1
    simp only [List.take_succ_cons, List.take_zero, List.sum_cons, List.sum_nil, add_zero] at h1
    simp only [List.map_cons, List.foldl_cons, Stat.add_num, h1]
    rw [ih (s0 + q)]
    · simp only [List.sum_cons]; rw [add_assoc]
    · intro k
      have hk := h (k + 1)
      simp only [List.take_succ_cons, List.sum_cons] at hk
      rw [add_assoc]; exact hk

/-- Without rounding the accumulated sum of squares is the exact sum of
squares. -/
theorem foldl_add_mul_exact (qs : List ℚ) (s0 : ℚ)
    (hsq : ∀ q ∈ qs, round64 (q * q) = .num (q * q))
    (h : ∀ k, round64 (s0 + ((qs.take k).map fun q => q * q).sum) =
      .num (s0 + ((qs.take k).map fun q => q * q).sum)) :
    (qs.map Stat.num).foldl (fun s v => Stat.add s (Stat.mul v v)) (.num s0) =
      .num (s0 + (qs.map fun q => q * q).sum) := by
  induction qs generalizing s0 with
  | nil => simp
  | cons q qs ih =>
    have h1 := h 1
    simp only [List.take_succ_cons, List.take_zero, List.map_cons, List.map_nil, List.sum_cons,
      List.sum_nil, add_zero] at h1
    simp only [List.map_cons, List.foldl_cons, Stat.mul_num, hsq q (List.mem_cons_self _ _),
      Stat.add_num, h1]
    rw [ih (s0 + q * q) (fun q' hq' => hsq q' (List.mem_cons_of_mem _ hq'))]
    · simp only [List.sum_cons]; rw [add_assoc]
    · intro k
      have hk := h (k + 1)
      simp only [List.take_succ_cons, List.map_cons, List.sum_cons] at hk
      rw [add_assoc]; exact hk

/-- Sum of squared deviations from any centre `c`, expanded. -/
theorem sum_sq_dev (xs : List ℚ) (c : ℚ) :
    (xs.map fun x => (x - c) * (x - c)).sum =
      (xs.map fun x => x * x).sum - 2 * c * xs.sum + xs.length * (c * c) := by
  induction xs with
  | nil => simp
  | cons y ys ih =>
    simp only [List.map_cons, List.sum_cons, List.length_cons] at ih ⊢
    rw [ih]
    push_cast
    ring

/-- The sample variance is the sum of squared deviations from the mean over
`n - 1`. -/
theorem sampleVariance_eq_sum_sq_dev (xs : List ℚ) (hne : xs ≠ []) :
    sampleVariance xs =
      (xs.map fun x => (x - xs.sum / xs.length) * (x - xs.sum / xs.length)).sum /
        ((xs.length : ℚ) - 1) := by
  have hn : (xs.length : ℚ) ≠ 0 := by
    exact_mod_cast fun h => hne (List.length_eq_zero.1 h)
  rw [sum_sq_dev, sampleVariance]
  congr 1
  field_simp
  ring

theorem sum_sq_dev_nonneg (xs : List ℚ) (c : ℚ) :
    0 ≤ (xs.map fun x => (x - c) * (x - c)).sum := by
  apply List.sum_nonneg
  intro v hv
  obtain ⟨x, -, rfl⟩ := List.mem_map.1 hv
  exact mul_self_nonneg _

theorem take_replicate_sum (n k : Nat) (c : ℚ) :
    ((List.replicate n c).take k).sum = ((min k n : Nat) : ℚ) * c := by
  rw [List.take_replicate, List.sum_replicate]
  simp
/-! ## Claims -/

/-- C1 (counterexample). Comparing a one-voxel image with itself under the
default ceilings, the statistics are mean 0, max 0, min 0 and a not-a-number
sigma; the run passes although `sigma <= sigmaTolerance` is false. -/
theorem C1_nan_sigma_passes :
    (main oneVoxelArgs).cout = some ⟨.num 0, 0, 0, .nan⟩ ∧
    ¬ ((main oneVoxelArgs).exitCode = .EXIT_SUCCESS ↔
        (Stat.le (.num 0) oneVoxelArgs.meanTolerance = true ∧
          (0 : ℚ) ≤ oneVoxelArgs.maxTolerance ∧ (0 : ℚ) ≤ oneVoxelArgs.minTolerance ∧
          Root.le .nan oneVoxelArgs.sigmaTolerance = true)) := by
  rw [oneVoxel_main]
  simp [Root.le]

/-- C1 (amended). For every summary and tolerance setting the run passes
exactly when no statistic is strictly greater than its ceiling; when the four
statistics are numbers this is `mean <= meanTolerance`, `max <= maxTolerance`,
`min <= minTolerance` and `sigma <= sigmaTolerance`, so a statistic equal to
its ceiling passes. The exit status of `main` is that verdict whenever the
statistics are computed. -/
theorem C1_tolerance_decision (s : Summary) (m mx mn v : ℚ)
    (meanTolerance maxTolerance minTolerance sigmaTolerance : ℚ) (a : Arguments) :
    (verdict s meanTolerance maxTolerance minTolerance sigmaTolerance = .EXIT_SUCCESS ↔
      (s.mean.gt meanTolerance = false ∧ ¬ s.maximum > maxTolerance ∧
        ¬ s.minimum > minTolerance ∧ s.sigma.gt sigmaTolerance = false)) ∧
    (verdict ⟨.num m, mx, mn, .sqrt v⟩ meanTolerance maxTolerance minTolerance
        sigmaTolerance = .EXIT_SUCCESS ↔
      (Stat.le (.num m) meanTolerance = true ∧ mx ≤ maxTolerance ∧
        mn ≤ minTolerance ∧ Root.le (.sqrt v) sigmaTolerance = true)) ∧
    ((main a).exitCode = .EXIT_SUCCESS ↔
      ∃ s', (main a).cout = some s' ∧
        verdict s' a.meanTolerance a.maxTolerance a.minTolerance a.sigmaTolerance =
          .EXIT_SUCCESS) := by
  refine ⟨verdict_success_iff _ _ _ _ _, ?_, main_exitCode_success_iff a⟩
  rw [verdict_success_iff]
  simp only [Stat.gt, Stat.le, Root.gt, Root.le, Stat.lt_iff, Stat.less, decide_eq_true_eq,
    decide_eq_false_iff_not, not_lt, not_or, gt_iff_lt]

/-- C2 (counterexample). With the outside switch and no mask the run ends in
failure with no masked image, no difference image and no statistics, although
A and B have the same extent and no mask is supplied. -/
theorem C2_outside_switch_without_mask :
    ((main outsideNoMaskArgs).exitCode = .EXIT_FAILURE ∧ (main outsideNoMaskArgs).masked = none ∧
      (main outsideNoMaskArgs).difference = none ∧ (main outsideNoMaskArgs).cout = none) ∧
    (main outsideNoMaskArgs).cerr = [outsideMessage] ∧
    ¬ (outsideNoMaskArgs.imageA.size ≠ outsideNoMaskArgs.imageB.size ∨
        ∃ mask, outsideNoMaskArgs.maskImage = some mask ∧
          (mask.size ≠ outsideNoMaskArgs.imageA.size ∨
            mask.size ≠ outsideNoMaskArgs.imageB.size)) := by
  simp [main, outsideNoMaskArgs, outsideWithoutMask, Image.const]

/-- C2 (amended). The run ends in failure with no masked image, no difference
image and no statistics exactly when the outside switch is given without a
mask, or the extents of A and B differ, or a mask is supplied whose extent
differs from that of A or of B; extent `(10,10,10)` against `(10,10,11)` ends
that way. -/
theorem C2_geometry_validation (a : Arguments) (pa pb : Nat → Nat → Nat → Stat) :
    (((main a).exitCode = .EXIT_FAILURE ∧ (main a).masked = none ∧
        (main a).difference = none ∧ (main a).cout = none) ↔
      ((a.maskImage = none ∧ a.maskOutside = true) ∨
        a.imageA.size ≠ a.imageB.size ∨
        ∃ mask, a.maskImage = some mask ∧
          (mask.size ≠ a.imageA.size ∨ mask.size ≠ a.imageB.size))) ∧
    ((main { a with imageA := { size := (10, 10, 10), pixel := pa },
                    imageB := { size := (10, 10, 11), pixel := pb } }).exitCode = .EXIT_FAILURE ∧
      (main { a with imageA := { size := (10, 10, 10), pixel := pa },
                     imageB := { size := (10, 10, 11), pixel := pb } }).masked = none ∧
      (main { a with imageA := { size := (10, 10, 10), pixel := pa },
                     imageB := { size := (10, 10, 11), pixel := pb } }).difference = none ∧
      (main { a with imageA := { size := (10, 10, 10), pixel := pa },
                     imageB := { size := (10, 10, 11), pixel := pb } }).cout = none) := by
  constructor
  · unfold main outsideWithoutMask
    cases hm : a.maskImage with
    | none =>
      cases ho : a.maskOutside
      · by_cases hAB : a.imageA.size = a.imageB.size <;> simp [hAB]
      · simp
    | some mask =>
      by_cases hAB : a.imageA.size = a.imageB.size
      · by_cases h1 : a.imageB.size = mask.size
        · simp [hAB, h1]
        · simp [hAB, h1, Ne.symm h1]
      · simp [hAB]
  · unfold main
    split_ifs <;> simp_all

/-- C3 (counterexample). With target label 1 and fill value 0 on a voxel
labelled 1: without the outside switch both masked images hold the fill value
0 (not the source values 5 and 7); with the switch masked B holds its source
value 7 (not the fill value). -/
theorem C3_modes_are_swapped :
    (maskedImageAOutput (labelledVoxelArgs false)).pixel 0 0 0 = 0 ∧
    (maskedImageBOutput (labelledVoxelArgs false)).pixel 0 0 0 = 0 ∧
    (labelledVoxelArgs false).imageA.pixel 0 0 0 = 5 ∧
    (labelledVoxelArgs false).imageB.pixel 0 0 0 = 7 ∧
    (maskedImageBOutput (labelledVoxelArgs true)).pixel 0 0 0 = 7 ∧
    (labelledVoxelArgs true).maskValue = 0 := by
  simp [maskedImageAOutput, maskedImageBOutput, labelledVoxelArgs, maskImageFilterA,
    maskImageFilterB, MaskImageFilter, MaskNegatedImageFilter, binaryFilter, MaskInput,
    MaskNegatedInput, MaskFunctor.New, MaskFunctor.SetMaskingValue, Image.const]

/-- C3 (amended). With fill value 0 (the default of `mask_value`), for every
volume, mask, target label and voxel: without the outside switch the masked
volume holds the fill value where the label equals the target and the source
value elsewhere, for A and for B; with the outside switch it holds the source
value where the label equals the target and the fill value elsewhere, for B,
and for A when the target label is 0. -/
theorem C3_masking_rule (a : Arguments) (mask : Image Nat) (hm : a.maskImage = some mask)
    (hF : a.maskValue = 0) (x y z : Nat) :
    (a.maskOutside = false →
      (maskedImageAOutput a).pixel x y z =
        (if mask.pixel x y z = a.maskLabel then (a.maskValue : Stat) else a.imageA.pixel x y z) ∧
      (maskedImageBOutput a).pixel x y z =
        (if mask.pixel x y z = a.maskLabel then (a.maskValue : Stat) else a.imageB.pixel x y z)) ∧
    (a.maskOutside = true →
      (maskedImageBOutput a).pixel x y z =
        (if mask.pixel x y z = a.maskLabel then a.imageB.pixel x y z else a.maskValue) ∧
      (a.maskLabel = 0 →
        (maskedImageAOutput a).pixel x y z =
          (if mask.pixel x y z = a.maskLabel then a.imageA.pixel x y z else a.maskValue))) := by
  constructor
  · intro ho
    simp [maskedImageAOutput, maskedImageBOutput, hm, ho, hF, maskImageFilterA, maskImageFilterB,
      MaskImageFilter, binaryFilter, MaskInput, MaskFunctor.New, MaskFunctor.SetMaskingValue]
  · intro ho
    refine ⟨?_, fun hT => ?_⟩
    · simp [maskedImageBOutput, hm, ho, hF, maskImageFilterB, MaskNegatedImageFilter,
        binaryFilter, MaskNegatedInput, MaskFunctor.New, MaskFunctor.SetMaskingValue]
    · simp [maskedImageAOutput, hm, ho, hF, hT, maskImageFilterA, MaskNegatedImageFilter,
        binaryFilter, MaskNegatedInput, MaskFunctor.New, MaskFunctor.SetOutsideValue]

/-- C3 (witness). One voxel labelled with the target label, in both modes. -/
theorem C3_masking_rule_witness :
    ((maskedImageAOutput (labelledVoxelArgs false)).pixel 0 0 0 =
        (if (Image.const (1, 1, 1) 1 : Image Nat).pixel 0 0 0 = (labelledVoxelArgs false).maskLabel
          then ((labelledVoxelArgs false).maskValue : Stat)
          else (labelledVoxelArgs false).imageA.pixel 0 0 0) ∧
      (maskedImageBOutput (labelledVoxelArgs false)).pixel 0 0 0 =
        (if (Image.const (1, 1, 1) 1 : Image Nat).pixel 0 0 0 = (labelledVoxelArgs false).maskLabel
          then ((labelledVoxelArgs false).maskValue : Stat)
          else (labelledVoxelArgs false).imageB.pixel 0 0 0)) ∧
    (maskedImageBOutput (labelledVoxelArgs true)).pixel 0 0 0 =
      (if (Image.const (1, 1, 1) 1 : Image Nat).pixel 0 0 0 = (labelledVoxelArgs true).maskLabel
        then (labelledVoxelArgs true).imageB.pixel 0 0 0
        else (labelledVoxelArgs true).maskValue) :=
  ⟨(C3_masking_rule (labelledVoxelArgs false) (Image.const (1, 1, 1) 1) rfl rfl 0 0 0).1 rfl,
   ((C3_masking_rule (labelledVoxelArgs true) (Image.const (1, 1, 1) 1) rfl rfl 0 0 0).2 rfl).1⟩

/-- C4 (failing input). With the outside switch and target label 1, the same
volume (one voxel of value 5) under a mask labelled 0 comes out of the image-A
step as 5 and out of the image-B step as 0; under a mask labelled 1 it comes
out of the image-A step as 1 and out of the image-B step as 5. Without the
switch the two steps are the same function. -/
theorem C4_outside_steps_differ :
    (maskImageFilterA true 1 (Image.const (1, 1, 1) 5) (Image.const (1, 1, 1) 0)).pixel 0 0 0 = 5 ∧
    (maskImageFilterB true 1 (Image.const (1, 1, 1) 5) (Image.const (1, 1, 1) 0)).pixel 0 0 0 = 0 ∧
    (maskImageFilterA true 1 (Image.const (1, 1, 1) 5) (Image.const (1, 1, 1) 1)).pixel 0 0 0 = 1 ∧
    (maskImageFilterB true 1 (Image.const (1, 1, 1) 5) (Image.const (1, 1, 1) 1)).pixel 0 0 0 = 5 ∧
    (∀ (T : Nat) (V : Image Stat) (L : Image Nat),
      maskImageFilterA false T V L = maskImageFilterB false T V L) := by
  refine ⟨?_, ?_, ?_, ?_, fun _ _ _ => rfl⟩ <;>
  simp [maskImageFilterA, maskImageFilterB, MaskNegatedImageFilter, binaryFilter,
    MaskNegatedInput, MaskFunctor.New, MaskFunctor.SetMaskingValue, MaskFunctor.SetOutsideValue,
    Image.const]

/-- C8 (counterexample). Two images of extent `(0,10,10)` compared under the
default ceilings reach the statistics step and the tolerance check: the four
statistics are reported (mean and sigma not-a-number) and the error line is
the tolerance line; with `minTolerance` at the largest float the run passes. -/
theorem C8_empty_volume_reaches_verdict :
    (main (emptyArgs 0)).cout = some ⟨.nan, -FLT_MAX, FLT_MAX, .nan⟩ ∧
    (main (emptyArgs 0)).cerr = [toleranceMessage] ∧
    (main (emptyArgs 0)).exitCode = .EXIT_FAILURE ∧
    (main (emptyArgs FLT_MAX)).exitCode = .EXIT_SUCCESS := by
  have hs : ∀ t, StatisticsImageFilter (AbsoluteValueDifferenceImageFilter
      (maskedImageAOutput (emptyArgs t)) (maskedImageBOutput (emptyArgs t))) =
        ⟨.nan, -FLT_MAX, FLT_MAX, .nan⟩ := fun t => statistics_of_empty_image _ rfl
  rw [main_of_congruent (emptyArgs 0) rfl rfl (fun _ h => by cases h),
    main_of_congruent (emptyArgs FLT_MAX) rfl rfl (fun _ h => by cases h), hs, hs]
  simp [verdict, exceedsTolerance, emptyArgs, Stat.gt, Root.gt, Stat.lt_iff, Stat.less, Stat.neg,
    FLT_MAX]

/-- C8 (amended). When the volume reaching the statistics step has zero voxels
there is no empty-volume error: the statistics are reported with mean and
sigma not-a-number (not zero), minimum the largest float and maximum its
negative, the exit status is the verdict of the tolerance check, and the run
fails with the tolerance line whenever `minTolerance` is below the largest
float, as it is by default. -/
theorem C8_empty_volume (a : Arguments)
    (hargs : outsideWithoutMask a.maskImage.isSome a.maskOutside = false)
    (hAB : a.imageA.size = a.imageB.size)
    (hM : ∀ mask, a.maskImage = some mask → a.imageA.size = mask.size)
    (hempty : a.imageA.size.1 = 0 ∨ a.imageA.size.2.1 = 0 ∨ a.imageA.size.2.2 = 0) :
    (main a).cout = some ⟨.nan, -FLT_MAX, FLT_MAX, .nan⟩ ∧
    (main a).exitCode = verdict ⟨.nan, -FLT_MAX, FLT_MAX, .nan⟩ a.meanTolerance a.maxTolerance
      a.minTolerance a.sigmaTolerance ∧
    (a.minTolerance < FLT_MAX →
      (main a).exitCode = .EXIT_FAILURE ∧ (main a).cerr = [toleranceMessage]) := by
  have hnil : (AbsoluteValueDifferenceImageFilter (maskedImageAOutput a)
      (maskedImageBOutput a)).pixels = [] := by
    rw [Image.pixels_eq_nil_iff]
    have : (AbsoluteValueDifferenceImageFilter (maskedImageAOutput a)
      (maskedImageBOutput a)).size = a.imageA.size := maskedImageAOutput_size a
    rw [this]; exact hempty
  rw [main_of_congruent a hargs hAB hM, statistics_of_empty_image _ hnil]
  refine ⟨rfl, rfl, fun h => ?_⟩
  simp [verdict, exceedsTolerance, Stat.lt_iff, Stat.less, h]

/-- C8 (witness). Extent `(0,10,10)` under the default ceilings. -/
theorem C8_empty_volume_witness :
    (main (emptyArgs 0)).cout = some ⟨.nan, -FLT_MAX, FLT_MAX, .nan⟩ ∧
    (main (emptyArgs 0)).exitCode = .EXIT_FAILURE ∧
    (main (emptyArgs 0)).cerr = [toleranceMessage] :=
  have h := C8_empty_volume (emptyArgs 0) rfl rfl (fun _ h => by cases h) (Or.inl rfl)
  ⟨h.1, h.2.2 FLT_MAX_pos⟩

/-- C9 (counterexample). In scenario 2 three statistics exceed their ceilings
(mean 2 > 1, max 2 > 0, min 2 > 0) and the error stream holds one line. -/
theorem C9_single_line_for_three_violations :
    (main scenario2Args).cout = some ⟨.num 2, 2, 2, .sqrt 0⟩ ∧
    specViolations ⟨.num 2, 2, 2, .sqrt 0⟩ scenario2Args.meanTolerance
      scenario2Args.maxTolerance scenario2Args.minTolerance scenario2Args.sigmaTolerance =
        ["mean", "max", "min"] ∧
    (main scenario2Args).cerr = [toleranceMessage] := by
  rw [scenario2_main]
  simp [specViolations, scenario2Args, Stat.gt, Root.gt, Stat.lt_iff, Stat.less]

/-- C9 (amended). Whenever the statistics are computed, the error stream holds
the one fixed tolerance line if at least one statistic is strictly greater
than its ceiling and nothing otherwise; the line is the same whichever and
however many statistics exceed. -/
theorem C9_failure_report (a : Arguments) (s : Summary) (h : (main a).cout = some s) :
    (main a).cerr =
      if specViolations s a.meanTolerance a.maxTolerance a.minTolerance a.sigmaTolerance = []
      then [] else [toleranceMessage] := by
  have hv : (specViolations s a.meanTolerance a.maxTolerance a.minTolerance a.sigmaTolerance = [])
      ↔ exceedsTolerance s a.meanTolerance a.maxTolerance a.minTolerance a.sigmaTolerance
          = false := by
    unfold specViolations exceedsTolerance
    by_cases h1 : s.mean.gt a.meanTolerance = true <;> by_cases h2 : s.maximum > a.maxTolerance <;>
      by_cases h3 : s.minimum > a.minTolerance <;>
      by_cases h4 : s.sigma.gt a.sigmaTolerance = true <;> simp [h1, h2, h3, h4]
  unfold main at h ⊢
  split_ifs at h ⊢ <;> simp_all

/-- C9 (witness). Scenario 2: three statistics exceed, one line is written. -/
theorem C9_failure_report_witness :
    (main scenario2Args).cerr =
      if specViolations ⟨.num 2, 2, 2, .sqrt 0⟩ scenario2Args.meanTolerance
        scenario2Args.maxTolerance scenario2Args.minTolerance scenario2Args.sigmaTolerance = []
      then [] else [toleranceMessage] :=
  C9_failure_report scenario2Args ⟨.num 2, 2, 2, .sqrt 0⟩ (by rw [scenario2_main])

/-- C5 (counterexample). A one-voxel volume compared with itself has a
not-a-number sigma, not sigma 0; a one-voxel volume holding infinity compared
with itself has a not-a-number difference and the run fails. -/
theorem C5_one_voxel_sigma_is_nan :
    (main oneVoxelArgs).cout = some ⟨.num 0, 0, 0, .nan⟩ ∧
    (main oneVoxelArgs).cout ≠ some ⟨.num 0, 0, 0, .sqrt 0⟩ ∧
    (AbsoluteValueDifferenceImageFilter (maskedImageAOutput infiniteVoxelArgs)
      (maskedImageBOutput infiniteVoxelArgs)).pixel 0 0 0 = .nan ∧
    (main infiniteVoxelArgs).exitCode = .EXIT_FAILURE := by
  have hp : (AbsoluteValueDifferenceImageFilter (maskedImageAOutput infiniteVoxelArgs)
      (maskedImageBOutput infiniteVoxelArgs)).pixels = [.nan] := rfl
  refine ⟨by rw [oneVoxel_main], by rw [oneVoxel_main]; simp, rfl, ?_⟩
  rw [main_of_congruent infiniteVoxelArgs rfl rfl (fun _ h => by cases h), StatisticsImageFilter,
    hp]
  simp [verdict, exceedsTolerance, infiniteVoxelArgs, statMinimum, Stat.lt_iff, Stat.less, FLT_MAX]

/-- C5 (amended). For every non-empty volume A whose samples are all finite
numbers, compared with itself without a mask and with all four ceilings 0: the
absolute difference is zero at every voxel, mean, min and max are 0, the run
passes, and sigma is 0 when A has at least two voxels (with a single voxel
sigma is not-a-number). -/
theorem C5_self_comparison (a : Arguments) (hB : a.imageB = a.imageA)
    (hm : a.maskImage = none) (ho : a.maskOutside = false)
    (hne : 0 < a.imageA.size.1 ∧ 0 < a.imageA.size.2.1 ∧ 0 < a.imageA.size.2.2)
    (hfin : ∀ x y z, a.imageA.inside x y z → ∃ q : ℚ, a.imageA.pixel x y z = .num q)
    (hmax : a.maxTolerance = 0) (hmin : a.minTolerance = 0) (hmean : a.meanTolerance = 0)
    (hsigma : a.sigmaTolerance = 0) :
    (∀ x y z, a.imageA.inside x y z →
      (AbsoluteValueDifferenceImageFilter (maskedImageAOutput a)
        (maskedImageBOutput a)).pixel x y z = 0) ∧
    (main a).exitCode = .EXIT_SUCCESS ∧
    (main a).cout = some
      { mean := .num 0, maximum := 0, minimum := 0,
        sigma := if a.imageA.size.2.2 * (a.imageA.size.2.1 * a.imageA.size.1) ≤ 1
                 then .nan else .sqrt 0 } := by
  have h0 : ∀ x y z, a.imageA.inside x y z →
      (AbsoluteValueDifferenceImageFilter (maskedImageAOutput a)
        (maskedImageBOutput a)).pixel x y z = .num 0 := by
    intro x y z hin
    obtain ⟨q, hq⟩ := hfin x y z hin
    simp only [AbsoluteValueDifferenceImageFilter, binaryFilter, maskedImageAOutput,
      maskedImageBOutput, hm, hB, hq]
    exact AbsoluteValueDifference2_self q
  have h := main_passes_of_zero_difference a (by simp [outsideWithoutMask, ho]) (by rw [hB])
    (fun _ h => by rw [hm] at h; cases h) hne h0 hmax hmin hmean hsigma
  rw [Image.pixels_length] at h
  refine ⟨fun x y z hin => by rw [h0 x y z hin]; simp, h.1, ?_⟩
  rw [h.2]; simp

/-- C5 (witness). Scenario 1: constant 5 over extent `(4,4,4)` against itself. -/
theorem C5_self_comparison_witness :
    (main scenario1Args).exitCode = .EXIT_SUCCESS ∧
    (main scenario1Args).cout = some ⟨.num 0, 0, 0, .sqrt 0⟩ := by
  have h := C5_self_comparison scenario1Args rfl rfl rfl (by decide)
    (fun _ _ _ _ => ⟨5, by simp [scenario1Args, Image.const]⟩) rfl rfl rfl rfl
  exact ⟨h.2.1, h.2.2⟩

/-- C6 (counterexample). Scenario 3 run with the outside switch: masked A
holds 1 and masked B holds 5 at the voxel labelled with the target (neither
holds the fill value 0), the difference at `(0,0,0)` is 5, and the run fails.
Without the switch, two images both holding infinity at a voxel whose label
differs from the target have a not-a-number difference there and the run
fails. -/
theorem C6_outside_switch_fails :
    (maskedImageAOutput (scenario3Args true)).pixel 1 1 1 = 1 ∧
    (maskedImageBOutput (scenario3Args true)).pixel 1 1 1 = 5 ∧
    (AbsoluteValueDifferenceImageFilter (maskedImageAOutput (scenario3Args true))
      (maskedImageBOutput (scenario3Args true))).pixel 0 0 0 = 5 ∧
    (main (scenario3Args true)).exitCode = .EXIT_FAILURE ∧
    (AbsoluteValueDifferenceImageFilter (maskedImageAOutput infiniteUnmaskedArgs)
      (maskedImageBOutput infiniteUnmaskedArgs)).pixel 0 0 0 = .nan ∧
    (main infiniteUnmaskedArgs).exitCode = .EXIT_FAILURE := by
  have hp : (AbsoluteValueDifferenceImageFilter (maskedImageAOutput (scenario3Args true))
      (maskedImageBOutput (scenario3Args true))).pixel 0 0 0 = .num 5 := by
    simp only [AbsoluteValueDifferenceImageFilter, maskedImageAOutput, maskedImageBOutput,
      scenario3Args, maskImageFilterA, maskImageFilterB, MaskNegatedImageFilter, binaryFilter,
      MaskNegatedInput, MaskFunctor.New, MaskFunctor.SetMaskingValue,
      MaskFunctor.SetOutsideValue, Image.const]
    simpa using AbsoluteValueDifference2_5_0
  have hq : (AbsoluteValueDifferenceImageFilter (maskedImageAOutput infiniteUnmaskedArgs)
      (maskedImageBOutput infiniteUnmaskedArgs)).pixels = [.nan] := rfl
  refine ⟨?_, ?_, by rw [hp]; simp, ?_, rfl, ?_⟩
  · simp [maskedImageAOutput, scenario3Args, maskImageFilterA, MaskNegatedImageFilter,
      binaryFilter, MaskNegatedInput, MaskFunctor.New, MaskFunctor.SetOutsideValue]
  · simp [maskedImageBOutput, scenario3Args, maskImageFilterB, MaskNegatedImageFilter,
      binaryFilter, MaskNegatedInput, MaskFunctor.New, MaskFunctor.SetMaskingValue, Image.const]
  · apply main_fails_of_difference_gt (scenario3Args true) rfl rfl
      (fun mask h => by cases h; rfl) 0 0 0
    · exact ⟨by decide, by decide, by decide⟩
    · rw [hp]; simp [scenario3Args, Stat.less]
  · rw [main_of_congruent infiniteUnmaskedArgs rfl rfl (fun mask h => by cases h; rfl),
      StatisticsImageFilter, hq]
    simp [verdict, exceedsTolerance, infiniteUnmaskedArgs, statMinimum, Stat.lt_iff, Stat.less,
      FLT_MAX]

/-- C6 (amended). Without the outside switch and with fill value 0: for all
congruent non-empty volumes A, B, mask L and target label T, if A and B hold
the same finite number at every voxel whose label differs from T, then masked
A and masked B both hold the fill value at every voxel labelled T, the masked
difference is zero at every voxel, and the run passes with all ceilings 0. -/
theorem C6_masking_suppresses_region (a : Arguments) (mask : Image Nat)
    (hm : a.maskImage = some mask) (ho : a.maskOutside = false) (hF : a.maskValue = 0)
    (hAB : a.imageA.size = a.imageB.size) (hAM : a.imageA.size = mask.size)
    (hne : 0 < a.imageA.size.1 ∧ 0 < a.imageA.size.2.1 ∧ 0 < a.imageA.size.2.2)
    (heq : ∀ x y z, a.imageA.inside x y z → mask.pixel x y z ≠ a.maskLabel →
      ∃ q : ℚ, a.imageA.pixel x y z = .num q ∧ a.imageB.pixel x y z = .num q)
    (hmax : a.maxTolerance = 0) (hmin : a.minTolerance = 0) (hmean : a.meanTolerance = 0)
    (hsigma : a.sigmaTolerance = 0) :
    (∀ x y z, mask.pixel x y z = a.maskLabel →
      (maskedImageAOutput a).pixel x y z = a.maskValue ∧
      (maskedImageBOutput a).pixel x y z = a.maskValue) ∧
    (∀ x y z, a.imageA.inside x y z →
      (AbsoluteValueDifferenceImageFilter (maskedImageAOutput a)
        (maskedImageBOutput a)).pixel x y z = 0) ∧
    (main a).exitCode = .EXIT_SUCCESS := by
  have hA : ∀ x y z, (maskedImageAOutput a).pixel x y z =
      (if mask.pixel x y z = a.maskLabel then .num 0 else a.imageA.pixel x y z) := by
    intro x y z
    simp [maskedImageAOutput, hm, ho, maskImageFilterA, MaskImageFilter, binaryFilter, MaskInput,
      MaskFunctor.New, MaskFunctor.SetMaskingValue]
  have hB : ∀ x y z, (maskedImageBOutput a).pixel x y z =
      (if mask.pixel x y z = a.maskLabel then .num 0 else a.imageB.pixel x y z) := by
    intro x y z
    simp [maskedImageBOutput, hm, ho, maskImageFilterB, MaskImageFilter, binaryFilter, MaskInput,
      MaskFunctor.New, MaskFunctor.SetMaskingValue]
  have h0 : ∀ x y z, a.imageA.inside x y z →
      (AbsoluteValueDifferenceImageFilter (maskedImageAOutput a)
        (maskedImageBOutput a)).pixel x y z = .num 0 := by
    intro x y z hin
    simp only [AbsoluteValueDifferenceImageFilter, binaryFilter, hA, hB]
    by_cases hl : mask.pixel x y z = a.maskLabel
    · rw [if_pos hl, if_pos hl]; exact AbsoluteValueDifference2_self 0
    · obtain ⟨q, hqA, hqB⟩ := heq x y z hin hl
      rw [if_neg hl, if_neg hl, hqA, hqB]; exact AbsoluteValueDifference2_self q
  refine ⟨fun x y z hl => ?_, fun x y z hin => by rw [h0 x y z hin]; simp, ?_⟩
  · rw [hA, hB, hF]; simp [hl]
  · exact (main_passes_of_zero_difference a (by simp [outsideWithoutMask, hm])  hAB
      (fun m h => by rw [hm] at h; cases h; exact hAM) hne h0 hmax hmin hmean hsigma).1

/-- C6 (witness). Scenario 3 without the outside switch: the images differ at
`(1,1,1)` and the run passes. -/
theorem C6_masking_suppresses_region_witness :
    (scenario3Args false).imageA.pixel 1 1 1 ≠ (scenario3Args false).imageB.pixel 1 1 1 ∧
    (main (scenario3Args false)).exitCode = .EXIT_SUCCESS :=
  ⟨by simp [scenario3Args, Image.const],
   (C6_masking_suppresses_region (scenario3Args false) _ rfl rfl rfl rfl rfl (by decide)
    (by
      intro x y z _ hl
      by_cases hc : x = 1 ∧ y = 1 ∧ z = 1
      · simp [scenario3Args, hc] at hl
      · exact ⟨5, by simp [scenario3Args, hc, Image.const]⟩)
    rfl rfl rfl rfl).2.2⟩

/-- C10 (counterexample). A holds not-a-number and 5, B holds 5 and 5, no mask,
all ceilings 0: the images differ at the first voxel, the difference image
holds not-a-number and 0, the statistics are (not-a-number, 0, 0,
not-a-number) and the run passes. -/
theorem C10_nan_voxel_passes :
    nanVoxelArgs.imageA.pixel 0 0 0 ≠ nanVoxelArgs.imageB.pixel 0 0 0 ∧
    (main nanVoxelArgs).cout = some ⟨.nan, 0, 0, .nan⟩ ∧
    (main nanVoxelArgs).exitCode = .EXIT_SUCCESS := by
  have hp : (AbsoluteValueDifferenceImageFilter (maskedImageAOutput nanVoxelArgs)
      (maskedImageBOutput nanVoxelArgs)).pixels =
        [AbsoluteValueDifference2 .nan 5, AbsoluteValueDifference2 5 5] := rfl
  have hs : StatisticsImageFilter (AbsoluteValueDifferenceImageFilter
      (maskedImageAOutput nanVoxelArgs) (maskedImageBOutput nanVoxelArgs)) =
        ⟨.nan, 0, 0, .nan⟩ := by
    rw [StatisticsImageFilter, hp, AbsoluteValueDifference2_nan_5, AbsoluteValueDifference2_5_5]
    simp [statMean, statVariance, statSum, sumOfSquares, statMaximum, statMinimum, Stat.add,
      Stat.mul, Stat.div, Stat.sub, Stat.sqrt, Stat.neg, Stat.lt_iff, Stat.less, FLT_MAX]
  refine ⟨by simp [nanVoxelArgs, Image.const], ?_, ?_⟩
  · rw [main_of_congruent nanVoxelArgs rfl rfl (fun _ h => by cases h), hs]
  · rw [main_of_congruent nanVoxelArgs rfl rfl (fun _ h => by cases h), hs]
    simp [verdict, exceedsTolerance, nanVoxelArgs, Stat.gt, Root.gt, Stat.lt_iff, Stat.less]

/-- C10 (amended). Without a mask, if congruent float volumes A and B differ at
a voxel inside the extent where neither holds not-a-number, the run fails when
the four ceilings are at their default 0, and it can only pass with
`maxTolerance` raised above 0. -/
theorem C10_default_strict (a : Arguments) (hAB : a.imageA.size = a.imageB.size)
    (hm : a.maskImage = none) (ho : a.maskOutside = false) (x y z : Nat)
    (hin : a.imageA.inside x y z)
    (hnA : a.imageA.pixel x y z ≠ .nan) (hnB : a.imageB.pixel x y z ≠ .nan)
    (hfA : (a.imageA.pixel x y z).isFloat) (hfB : (a.imageB.pixel x y z).isFloat)
    (hd : a.imageA.pixel x y z ≠ a.imageB.pixel x y z) :
    (a.maxTolerance = 0 → a.minTolerance = 0 → a.meanTolerance = 0 → a.sigmaTolerance = 0 →
      (main a).exitCode = .EXIT_FAILURE) ∧
    ((main a).exitCode = .EXIT_SUCCESS → 0 < a.maxTolerance) := by
  have hp : (AbsoluteValueDifferenceImageFilter (maskedImageAOutput a)
      (maskedImageBOutput a)).pixel x y z =
        AbsoluteValueDifference2 (a.imageA.pixel x y z) (a.imageB.pixel x y z) := by
    simp [AbsoluteValueDifferenceImageFilter, binaryFilter, maskedImageAOutput,
      maskedImageBOutput, hm]
  have hpos := AbsoluteValueDifference2_pos _ _ hnA hnB hfA hfB hd
  rw [← hp] at hpos
  have hin' : (AbsoluteValueDifferenceImageFilter (maskedImageAOutput a)
      (maskedImageBOutput a)).inside x y z := by
    simpa [Image.inside, AbsoluteValueDifferenceImageFilter, binaryFilter, maskedImageAOutput, hm]
      using hin
  have hfail : a.maxTolerance ≤ 0 → (main a).exitCode = .EXIT_FAILURE := fun h =>
    main_fails_of_difference_gt a (by simp [outsideWithoutMask, ho]) hAB
      (fun _ h => by rw [hm] at h; cases h) x y z hin'
      (Stat.less_of_less_of_lessEq _ _ _
        (by
          rcases lt_or_eq_of_le h with h1 | h1
          · exact Stat.less_of_less_of_lessEq (.num a.maxTolerance) (.num 0) _
              (by simp [Stat.less, h1]) (Stat.lessEq_of_less _ _ hpos)
          · rw [h1]; exact hpos)
        (Stat.lessEq_refl _ (Stat.ne_nan_of_less _ _ hpos).2))
  refine ⟨fun h _ _ _ => hfail (le_of_eq h), fun hs => ?_⟩
  by_contra hn
  rw [hfail (not_lt.1 hn)] at hs
  cases hs

/-- C10 (witness). Constant 5 against constant 7 with every ceiling at 0. -/
theorem C10_default_strict_witness : (main defaultStrictArgs).exitCode = .EXIT_FAILURE :=
  (C10_default_strict defaultStrictArgs rfl rfl rfl 0 0 0 ⟨by decide, by decide, by decide⟩
    (by simp [defaultStrictArgs, Image.const]) (by simp [defaultStrictArgs, Image.const])
    (by simp [defaultStrictArgs, Image.const, Stat.isFloat]; norm_num)
    (by simp [defaultStrictArgs, Image.const, Stat.isFloat]; norm_num)
    (by simp [defaultStrictArgs, Image.const])).1 rfl rfl rfl rfl

end ImageCompare
